import Mathlib

set_option maxRecDepth 100000

/-!
Verification of the OvenMediaEngine excerpt consisting of
`projects/publishers/cmaf/cmaf_packetyzer.cpp` (CMAF low-latency segment
packetizer) and `projects/config/engine/data_source.cpp` (configuration
data source).

Modelling conventions:
* C++ `double` values are modelled exactly by the unnormalized fraction type
  `Frac` (an integer numerator and denominator); `Frac.val` maps a fraction to
  the rational number it denotes.  Binary floating point rounding is not
  modelled; all claims about the code's arithmetic are settled in exact
  rational arithmetic.
* Machine integers are modelled by `Nat`/`Int`; the sequence counters of the
  packetizer are `Nat` (the C++ counters are 32-bit and are only ever
  incremented by one per finalized segment, so wrap-around is unreachable in
  any realistic stream lifetime).
* Impure reads of the ambient environment (wall-clock time strings, process
  environment variables, the host name) are passed in as explicit parameters.
* Code of the repository that this excerpt calls but that is not part of the
  excerpt (the `DashPacketyzer`/`Packetyzer` base classes, `CmafChunkWriter`,
  `ov::Converter`) is modelled from the natural-language specification; every
  such definition carries a doc comment starting with `Modelled from the
  spec:`.
-/

/-- Exact model of a C++ `double` value as an unnormalized fraction.
All doubles appearing in the packetizer are produced by a bounded number of
exact divisions/subtractions, which `Frac` mirrors without rounding. -/
structure Frac where
  num : Int
  den : Int
deriving DecidableEq, Repr

/-- Embed an integer as a fraction. -/
def Frac.ofInt (n : Int) : Frac := ⟨n, 1⟩

/-- Embed a natural number as a fraction. -/
def Frac.ofNat (n : Nat) : Frac := ⟨(n : Int), 1⟩

/-- Subtraction of fractions (cross multiplication, no normalization). -/
def Frac.sub (a b : Frac) : Frac := ⟨a.num * b.den - b.num * a.den, a.den * b.den⟩

/-- Division of fractions (cross multiplication, no normalization). -/
def Frac.div (a b : Frac) : Frac := ⟨a.num * b.den, a.den * b.num⟩

/-- Multiplication of fractions. -/
def Frac.mul (a b : Frac) : Frac := ⟨a.num * b.num, a.den * b.den⟩

/-- The rational number denoted by a fraction. -/
def Frac.val (f : Frac) : ℚ := (f.num : ℚ) / (f.den : ℚ)

/-- A fraction compares equal to `0.0` exactly when its numerator is zero
(the code only compares against zero with `!=`). -/
def Frac.isZero (f : Frac) : Bool := f.num == 0

/-- Truncation toward zero, as a C++ `static_cast<uint32_t>` applied to a
nonnegative in-range double (the packetizer casts timescales and tick
durations, which are nonnegative). -/
def Frac.toUInt32Trunc (f : Frac) : Nat := (f.num.tdiv f.den).toNat

/-- Left-pad a natural number below 1000 to three decimal digits. -/
def pad3 (n : Nat) : String :=
  if n < 10 then "00" ++ toString n
  else if n < 100 then "0" ++ toString n
  else toString n

/-- Rendering of a double with `std::fixed << std::setprecision(3)`:
three digits after the decimal point, rounding to nearest (ties away from
zero in this model; the values rendered by the packetizer are not ties). -/
def Frac.fixed3 (f : Frac) : String :=
  let m : Int := Int.fdiv (2 * f.num * 1000 + f.den) (2 * f.den)
  if m < 0 then "-" ++ toString ((-m).toNat / 1000) ++ "." ++ pad3 ((-m).toNat % 1000)
  else toString (m.toNat / 1000) ++ "." ++ pad3 (m.toNat % 1000)

/-- Substring test on character lists (used to state facts about rendered
manifest text). -/
def containsSub (hay needle : List Char) : Bool :=
  match hay with
  | [] => needle.isEmpty
  | _ :: t => needle.isPrefixOf hay || containsSub t needle

/-- Substring test on strings. -/
def strContains (hay needle : String) : Bool := containsSub hay.data needle.data

namespace cfg

/-! ### Embedding of `projects/config/engine/data_source.cpp` -/

/-- A pugixml node as seen by `DataSource`: either the empty node (what
`pugi::xml_node::child` returns when the child is absent) or an element with
a name, attributes, children and PCDATA text (`child_value`). -/
inductive XmlNode where
| empty : XmlNode
| elem (name : String) (attrs : List (String × String)) (children : List XmlNode)
    (text : String) : XmlNode

/-- Name of a node (empty nodes have the empty name, as in pugixml). -/
def XmlNode.nameOf : XmlNode → String
| .empty => ""
| .elem n _ _ _ => n

/-- The `empty()` test of `pugi::xml_node`. -/
def XmlNode.isEmptyNode : XmlNode → Bool
| .empty => true
| .elem _ _ _ _ => false

/-- `pugi::xml_node::child(name)`: the first child element with the given
name, or the empty node when absent. -/
def XmlNode.child (node : XmlNode) (childName : String) : XmlNode :=
  match node with
  | .empty => .empty
  | .elem _ _ children _ => (children.find? (fun c => c.nameOf == childName)).getD .empty

/-- `pugi::xml_node::child_value()`: the PCDATA text of the node ("" for the
empty node). -/
def XmlNode.childValue : XmlNode → String
| .empty => ""
| .elem _ _ _ t => t

/-- `pugi::xml_node::attribute(name)`: `none` models the empty attribute
handle returned when the attribute is absent. -/
def XmlNode.attrOf (node : XmlNode) (attrName : String) : Option String :=
  match node with
  | .empty => none
  | .elem _ attrs _ _ => (attrs.find? (fun p => p.1 == attrName)).map (fun p => p.2)

/-- `pugi::xml_node::children(name)`: all children with the given name. -/
def XmlNode.childrenNamed (node : XmlNode) (childName : String) : List XmlNode :=
  match node with
  | .empty => []
  | .elem _ _ children _ => children.filter (fun c => c.nameOf == childName)

/-- A `Json::Value` as seen by `DataSource`. -/
inductive JsonValue where
| null : JsonValue
| str (s : String) : JsonValue
| boolean (b : Bool) : JsonValue
| intVal (n : Int) : JsonValue
| realVal (f : Frac) : JsonValue
| obj (members : List (String × JsonValue)) : JsonValue
| arr (items : List JsonValue) : JsonValue

/-- `Json::Value::isNull()`. -/
def JsonValue.isNull : JsonValue → Bool
| .null => true
| _ => false

/-- `Json::Value::isObject()`. -/
def JsonValue.isObject : JsonValue → Bool
| .obj _ => true
| _ => false

/-- `Json::Value::isArray()`. -/
def JsonValue.isArray : JsonValue → Bool
| .arr _ => true
| _ => false

/-- `Json::Value::empty()`: true for null, the empty object and the empty
array. -/
def JsonValue.isEmptyVal : JsonValue → Bool
| .null => true
| .obj [] => true
| .arr [] => true
| _ => false

/-- `cfg::GetJsonValue` (data_source.cpp:450): the named member of an object,
`Json::nullValue` otherwise. -/
def getJsonValue (value : JsonValue) (name : String) : JsonValue :=
  match value with
  | .obj members => ((members.find? (fun p => p.1 == name)).map (fun p => p.2)).getD .null
  | _ => .null

/-- `cfg::GetJsonAttribute` (data_source.cpp:463): the named entry of the
`$` (attributes) member of an object. -/
def getJsonAttribute (value : JsonValue) (attributeName : String) : JsonValue :=
  match value with
  | .obj members =>
    match (members.find? (fun p => p.1 == "$")).map (fun p => p.2) with
    | some attrs => getJsonValue attrs attributeName
    | none => .null
  | _ => .null

/-- The ambient process environment read by the preprocessing helpers:
environment variables, the host name, and the two path macros. -/
structure SysEnv where
  env : List (String × String)
  hostname : String
  appPath : String
  curPath : String

/-- `cfg::GetEnv` (data_source.cpp:244): environment lookup with a
`HOSTNAME` fallback and an optional default value. -/
def getEnvValue (se : SysEnv) (key : String) (defaultValue : String) : String :=
  match (se.env.find? (fun p => p.1 == key)).map (fun p => p.2) with
  | some v => v
  | none =>
    if key == "HOSTNAME" then se.hostname
    else if defaultValue ≠ "" then defaultValue
    else ""

/-- Split an `env` macro token at its first colon into key and default value
(`find_first_of(':')` in the source). -/
def splitFirstColon : List Char → List Char × Option (List Char)
| [] => ([], none)
| c :: t =>
  if c = ':' then ([], some t)
  else
    let p := splitFirstColon t
    (c :: p.1, p.2)

/-- Substitution performed for one `$\x7benv:KEY:DEFAULT\x7d` token. -/
def substEnvToken (se : SysEnv) (tok : List Char) : List Char :=
  let p := splitFirstColon tok
  let key := String.mk p.1
  let defaultValue := match p.2 with
    | some d => String.mk d
    | none => ""
  (getEnvValue se key defaultValue).data

/-- Scanner for `cfg::PreprocessForEnv` (data_source.cpp:282): replaces each
`$\x7benv:...\x7d` region (regex `\$\\x7benv:([^\x7d]*)\\x7d`) by the looked-up
value; an unterminated region is emitted verbatim. The second argument holds
the token collected so far when inside a region. -/
def envScanAux (se : SysEnv) : List Char → Option (List Char) → List Char
| '$' :: '{' :: 'e' :: 'n' :: 'v' :: ':' :: t, none => envScanAux se t (some [])
| c :: t, none => c :: envScanAux se t none
| c :: t, some tok =>
  if c = '}' then substEnvToken se tok ++ envScanAux se t none
  else envScanAux se t (some (tok ++ [c]))
| [], none => []
| [], some tok => '$' :: '{' :: 'e' :: 'n' :: 'v' :: ':' :: tok

/-- `cfg::PreprocessForEnv` (data_source.cpp:282). -/
def preprocessForEnv (se : SysEnv) (value : String) : String :=
  String.mk (envScanAux se value.data none)

/-- Non-overlapping replace-all on character lists, as `ov::String::Replace`;
the fuel argument (initially the length of the list) makes the recursion
structural. -/
def replaceAllAux (pat rep : List Char) : Nat → List Char → List Char
| _, [] => []
| 0, cs => cs
| Nat.succ fuel, c :: t =>
  if pat.isPrefixOf (c :: t) ∧ pat ≠ [] then
    rep ++ replaceAllAux pat rep fuel ((c :: t).drop pat.length)
  else c :: replaceAllAux pat rep fuel t

/-- `ov::String::Replace(pat, rep)` (replaces every occurrence). -/
def replaceAll (s pat rep : String) : String :=
  String.mk (replaceAllAux pat.data rep.data s.data.length s.data)

/-- `cfg::PreprocessForMacros` (data_source.cpp:326): substitutes the
`$\x7bome.AppHome\x7d` and `$\x7bome.CurrentPath\x7d` macros. -/
def preprocessForMacros (se : SysEnv) (s : String) : String :=
  replaceAll (replaceAll s "$\x7bome.AppHome\x7d" se.appPath) "$\x7bome.CurrentPath\x7d" se.curPath

/-- `ov::PathManager::IsAbsolute`: whether the path starts with a slash. -/
def isAbsolutePath (s : String) : Bool :=
  match s.data with
  | '/' :: _ => true
  | _ => false

/-- `ov::PathManager::Combine`: join two path components with a slash. -/
def combinePath (a b : String) : String :=
  match a.data.getLast? with
  | some '/' => a ++ b
  | _ => a ++ "/" ++ b

/-- `cfg::PreprocessForPath` (data_source.cpp:334). -/
def preprocessForPath (currentPath : String) (s : String) : String :=
  if isAbsolutePath s = false then combinePath currentPath s else s

/-- `cfg::Preprocess` (data_source.cpp:345). -/
def preprocess (se : SysEnv) (currentPath : String) (value : String)
    (resolvePath : Bool) : String :=
  let r := preprocessForEnv se value
  let r := preprocessForMacros se r
  if resolvePath then preprocessForPath currentPath r else r

/-- `cfg::DataType`. -/
inductive DataType where
| xml : DataType
| json : DataType
deriving DecidableEq

/-- `cfg::OmitRule`. -/
inductive OmitRule where
| omitName : OmitRule
| dontOmit : OmitRule
deriving DecidableEq

/-- `cfg::ValueType` (the `attr` constructor is `ValueType::Attribute`,
`listv` is `ValueType::List`). -/
inductive ValueType where
| unknown : ValueType
| strType : ValueType
| integer : ValueType
| long : ValueType
| boolean : ValueType
| double : ValueType
| attr : ValueType
| text : ValueType
| item : ValueType
| listv : ValueType
deriving DecidableEq

/-- The scalar value types named by the specification (string, integer,
long, boolean, double, text, attribute). -/
def ValueType.isScalar : ValueType → Bool
| .strType => true
| .integer => true
| .long => true
| .boolean => true
| .double => true
| .attr => true
| .text => true
| _ => false

/-- `cfg::DataSource` state: the data type, the wrapped XML node or JSON
value, and the path bookkeeping carried by the constructors. -/
structure DataSource where
  typ : DataType
  node : XmlNode
  json : JsonValue
  jsonName : String
  currentPath : String
  fileName : String

/-- The XML `DataSource` constructor (data_source.cpp:33). -/
def DataSource.fromXml (currentPath fileName : String) (node : XmlNode) : DataSource :=
  ⟨DataType.xml, node, JsonValue.null, "", currentPath, fileName⟩

/-- The JSON `DataSource` constructor (data_source.cpp:43). -/
def DataSource.fromJson (currentPath fileName jsonName : String) (json : JsonValue) : DataSource :=
  ⟨DataType.json, XmlNode.empty, json, jsonName, currentPath, fileName⟩

/-- Modelled from the spec: `ov::Converter` is outside this excerpt (it is a
utility library the excerpt links against); its `ToInt32`/`ToInt64` parse a
leading optional sign and decimal digits, as the configuration loader feeds
them decimal text. The parse helpers below model exactly that. -/
def parseDigitsAcc : List Char → Nat → Nat
| [], acc => acc
| c :: t, acc => if c.isDigit then parseDigitsAcc t (acc * 10 + (c.toNat - 48)) else acc

/-- Modelled from the spec: decimal integer prefix parse (sign + digits). -/
def parseIntText (s : String) : Int :=
  match s.data with
  | '-' :: t => -(parseDigitsAcc t 0 : Int)
  | '+' :: t => (parseDigitsAcc t 0 : Int)
  | l => (parseDigitsAcc l 0 : Int)

/-- Modelled from the spec: `ov::Converter::ToInt32` on text. -/
def ovToInt32 (s : String) : Int :=
  (parseIntText s + 2 ^ 31) % 2 ^ 32 - 2 ^ 31

/-- Modelled from the spec: `ov::Converter::ToInt64` on text. -/
def ovToInt64 (s : String) : Int :=
  (parseIntText s + 2 ^ 63) % 2 ^ 64 - 2 ^ 63

/-- Modelled from the spec: `ov::Converter::ToBool` on text ("true" or a
nonzero number). -/
def ovToBool (s : String) : Bool :=
  s == "true" || parseIntText s != 0

/-- Modelled from the spec: `ov::Converter::ToDouble` on text (decimal
number with an optional fractional part). -/
def ovToDouble (s : String) : Frac :=
  match s.splitOn "." with
  | [a] => Frac.ofInt (parseIntText a)
  | [a, b] =>
    let ip := parseIntText a
    let fracDigits := b.data.takeWhile Char.isDigit
    let scale : Int := (10 : Int) ^ fracDigits.length
    let fp : Int := (parseDigitsAcc fracDigits 0 : Int)
    if ip < 0 ∨ a.data.head? = some '-' then ⟨ip * scale - fp, scale⟩ else ⟨ip * scale + fp, scale⟩
  | _ => Frac.ofInt 0

/-- Modelled from the spec: `ov::Converter::ToString` on a JSON value
(identity on strings, decimal rendering of numbers). -/
def jsonToText : JsonValue → String
| .null => ""
| .str s => s
| .boolean b => if b then "true" else "false"
| .intVal n => toString n
| .realVal f => f.fixed3
| .obj _ => ""
| .arr _ => ""

/-- Modelled from the spec: `ov::Converter::ToInt32` on a JSON value. -/
def jsonToInt32 : JsonValue → Int
| .intVal n => (n + 2 ^ 31) % 2 ^ 32 - 2 ^ 31
| .str s => ovToInt32 s
| .boolean b => if b then 1 else 0
| .realVal f => f.num.tdiv f.den
| _ => 0

/-- Modelled from the spec: `ov::Converter::ToInt64` on a JSON value. -/
def jsonToInt64 : JsonValue → Int
| .intVal n => (n + 2 ^ 63) % 2 ^ 64 - 2 ^ 63
| .str s => ovToInt64 s
| .boolean b => if b then 1 else 0
| .realVal f => f.num.tdiv f.den
| _ => 0

/-- Modelled from the spec: `ov::Converter::ToBool` on a JSON value. -/
def jsonToBool : JsonValue → Bool
| .boolean b => b
| .intVal n => n != 0
| .str s => ovToBool s
| _ => false

/-- Modelled from the spec: `ov::Converter::ToDouble` on a JSON value. -/
def jsonToDouble : JsonValue → Frac
| .intVal n => Frac.ofInt n
| .realVal f => f
| .str s => ovToDouble s
| _ => Frac.ofInt 0

/-- The `std::any` result of a value query: `none` is the empty `std::any`
returned for an absent value. -/
inductive AnyValue where
| strVal (s : String) : AnyValue
| int32 (n : Int) : AnyValue
| int64 (n : Int) : AnyValue
| boolVal (b : Bool) : AnyValue
| doubleVal (f : Frac) : AnyValue
| itemVal (ds : DataSource) : AnyValue
| listVal (l : List DataSource) : AnyValue

/-- `cfg::DataSource::GetValueFromXml` (data_source.cpp:359). The pair holds
the returned `std::any` (`none` = empty) and the value written through the
`original_value` out-parameter (`none` = not assigned). -/
def getValueFromXml (se : SysEnv) (ds : DataSource) (valueType : ValueType)
    (name : String) (isChild resolvePath : Bool) : Option AnyValue × Option JsonValue :=
  match valueType with
  | .unknown => (none, some .null)
  | .strType =>
    let node := if isChild then ds.node.child name else ds.node
    (if node.isEmptyNode then none
     else some (.strVal (preprocess se ds.currentPath node.childValue resolvePath)),
     some (.str node.childValue))
  | .integer =>
    let node := if isChild then ds.node.child name else ds.node
    (if node.isEmptyNode then none
     else some (.int32 (ovToInt32 (preprocess se ds.currentPath node.childValue resolvePath))),
     some (.str node.childValue))
  | .long =>
    let node := if isChild then ds.node.child name else ds.node
    (if node.isEmptyNode then none
     else some (.int64 (ovToInt64 (preprocess se ds.currentPath node.childValue resolvePath))),
     some (.str node.childValue))
  | .boolean =>
    let node := if isChild then ds.node.child name else ds.node
    (if node.isEmptyNode then none
     else some (.boolVal (ovToBool (preprocess se ds.currentPath node.childValue resolvePath))),
     some (.str node.childValue))
  | .double =>
    let node := if isChild then ds.node.child name else ds.node
    (if node.isEmptyNode then none
     else some (.doubleVal (ovToDouble (preprocess se ds.currentPath node.childValue resolvePath))),
     some (.str node.childValue))
  | .attr =>
    let attrVal := ds.node.attrOf name
    (match attrVal with
     | none => none
     | some v => some (.strVal (preprocess se ds.currentPath v resolvePath)),
     some (.str (attrVal.getD "")))
  | .text =>
    let node := if isChild then ds.node.child name else ds.node
    (if node.isEmptyNode then none
     else some (.strVal (preprocess se ds.currentPath node.childValue resolvePath)),
     some (.str node.childValue))
  | .item =>
    let node := if isChild then ds.node.child name else ds.node
    (if node.isEmptyNode then none
     else some (.itemVal (DataSource.fromXml ds.currentPath ds.fileName node)),
     some (.obj []))
  | .listv =>
    if ds.node.isEmptyNode = false then
      let children := ds.node.childrenNamed name
      let dataSources := children.map (fun c => DataSource.fromXml ds.currentPath ds.fileName c)
      let orig := JsonValue.arr (children.map (fun c => JsonValue.str c.childValue))
      (if dataSources.length > 0 then some (.listVal dataSources) else none, some orig)
    else (none, none)

mutual

/-- Structural depth of a JSON value (used as recursion fuel below). -/
def JsonValue.depth : JsonValue → Nat
| .null => 1
| .str _ => 1
| .boolean _ => 1
| .intVal _ => 1
| .realVal _ => 1
| .obj members => 1 + JsonValue.depthMembers members
| .arr items => 1 + JsonValue.depthList items

/-- Depth of a list of JSON values. -/
def JsonValue.depthList : List JsonValue → Nat
| [] => 0
| j :: t => max (JsonValue.depth j) (JsonValue.depthList t)

/-- Depth of an object member list. -/
def JsonValue.depthMembers : List (String × JsonValue) → Nat
| [] => 0
| p :: t => max (JsonValue.depth p.2) (JsonValue.depthMembers t)

end

/-- `cfg::GetJsonList` (data_source.cpp:478); the fuel argument (any bound on
the nesting depth of the value, the depth at the call site) makes the
`OmitRule::Omit` descent structural. -/
def getJsonList (currentPath fileName : String) : Nat → JsonValue → String → OmitRule →
    Option AnyValue × Option JsonValue
| _, .null, _, _ => (none, none)
| 0, _, _, _ => (none, none)
| Nat.succ fuel, json, name, omitRule =>
  if json.isArray = false ∧ omitRule = OmitRule.omitName then
    getJsonList currentPath fileName fuel (getJsonValue json name) name omitRule
  else
    let childValue := if json.isArray then JsonValue.null else getJsonValue json name
    if json.isArray = false ∧ childValue.isNull then (none, none)
    else
      match json, childValue with
      | .arr items, _ =>
        (some (.listVal (items.map (fun j => DataSource.fromJson currentPath fileName name j))),
         some (.arr items))
      | _, c =>
        (some (.listVal [DataSource.fromJson currentPath fileName name c]), some (.arr [c]))

/-- `cfg::DataSource::GetValueFromJson` (data_source.cpp:536). -/
def getValueFromJson (se : SysEnv) (ds : DataSource) (valueType : ValueType)
    (name : String) (isChild resolvePath : Bool) (omitRule : OmitRule) :
    Option AnyValue × Option JsonValue :=
  match valueType with
  | .unknown => (none, some .null)
  | .strType =>
    let json := if isChild then getJsonValue ds.json name else ds.json
    (if json.isNull then none
     else some (.strVal (preprocess se ds.currentPath (jsonToText json) resolvePath)),
     some json)
  | .integer =>
    let json := if isChild then getJsonValue ds.json name else ds.json
    (if json.isNull then none else some (.int32 (jsonToInt32 json)), some json)
  | .long =>
    let json := if isChild then getJsonValue ds.json name else ds.json
    (if json.isNull then none else some (.int64 (jsonToInt64 json)), some json)
  | .boolean =>
    let json := if isChild then getJsonValue ds.json name else ds.json
    (if json.isNull then none else some (.boolVal (jsonToBool json)), some json)
  | .double =>
    let json := if isChild then getJsonValue ds.json name else ds.json
    (if json.isNull then none else some (.doubleVal (jsonToDouble json)), some json)
  | .attr =>
    let attrVal := getJsonAttribute ds.json name
    (if attrVal.isEmptyVal then none
     else some (.strVal (preprocess se ds.currentPath (jsonToText attrVal) resolvePath)),
     some attrVal)
  | .text =>
    let json := if isChild then getJsonValue ds.json name else ds.json
    (if json.isNull then none
     else some (.strVal (preprocess se ds.currentPath (jsonToText json) resolvePath)),
     some json)
  | .item =>
    let json := if isChild then getJsonValue ds.json name else ds.json
    (if json.isNull then none
     else some (.itemVal (DataSource.fromJson ds.currentPath ds.fileName name json)),
     some json)
  | .listv =>
    if ds.json.isNull = false then
      getJsonList ds.currentPath ds.fileName ds.json.depth ds.json name omitRule
    else (none, none)

/-- `cfg::DataSource::GetValue` (data_source.cpp:229): dispatch on the data
type (the per-type resolution of `ItemName` is modelled by passing the
already-resolved name). -/
def DataSource.getValue (se : SysEnv) (ds : DataSource) (valueType : ValueType)
    (name : String) (resolvePath : Bool) (omitRule : OmitRule) :
    Option AnyValue × Option JsonValue :=
  match ds.typ with
  | .xml => getValueFromXml se ds valueType name true resolvePath
  | .json => getValueFromJson se ds valueType name true resolvePath omitRule

/-- Whether the value a scalar query would look at is absent from an XML
data source: for `Attribute`, the attribute is missing; otherwise the child
element is missing. -/
def xmlAbsent (ds : DataSource) (valueType : ValueType) (name : String) : Bool :=
  match valueType with
  | .attr => (ds.node.attrOf name).isNone
  | _ => (ds.node.child name).isEmptyNode

/-- Whether the value a scalar query would look at is absent from a JSON
data source: for `Attribute`, the `$`-member entry is empty; otherwise the
member is missing. -/
def jsonAbsent (ds : DataSource) (valueType : ValueType) (name : String) : Bool :=
  match valueType with
  | .attr => (getJsonAttribute ds.json name).isEmptyVal
  | _ => (getJsonValue ds.json name).isNull

end cfg

namespace cmaf

/-! ### Embedding of `projects/publishers/cmaf/cmaf_packetyzer.cpp`

The `CmafPacketyzer` class inherits state and helpers from
`DashPacketyzer`/`Packetyzer` (sequence counters, `SetSegmentData`,
`SetPlayList`, `_streaming_start`, the append-internal routines) and uses the
`CmafChunkWriter` class; those are part of the repository but not of this
excerpt, so they are modelled from the specification below (each such
definition says so).  Wall-clock time strings (`MakeUtcSecond`,
`MakeUtcMillisecond`) are passed in as explicit string parameters. -/

/-- `common::MediaType` (the two kinds used by the packetizer). -/
inductive MediaType where
| video : MediaType
| audio : MediaType
deriving DecidableEq

/-- One accumulated sample: presentation timestamp (track timescale units),
duration in ticks, payload bytes. -/
structure SampleData where
  timestamp : Int
  duration : Nat
  payload : List Nat
deriving DecidableEq, Repr

/-- Modelled from the spec: `CmafChunkWriter` (§4.1 ChunkWriter) — the
accumulated samples of the open fragment, in append order.  The binary box
structure of emitted chunks is not inspected by any claim; a chunk payload is
modelled by the bytes of the sample it covers. -/
structure ChunkWriter where
  samples : List SampleData
deriving DecidableEq

/-- Modelled from the spec: `GetSampleCount()` — number of accumulated
samples. -/
def ChunkWriter.getSampleCount (w : ChunkWriter) : Nat := w.samples.length

/-- Modelled from the spec: `GetStartTimestamp()` — timestamp of the first
sample appended since the last `Clear` (only read when samples exist). -/
def ChunkWriter.getStartTimestamp (w : ChunkWriter) : Int :=
  match w.samples with
  | [] => 0
  | d :: _ => d.timestamp

/-- Modelled from the spec: `GetSegmentDuration()` — sum of the accumulated
sample durations (ticks). -/
def ChunkWriter.getSegmentDuration (w : ChunkWriter) : Nat :=
  (w.samples.map (fun d => d.duration)).sum

/-- Modelled from the spec: `GetChunkedSegment()` — the full accumulated
fragment payload (concatenation of all chunks emitted since the last
`Clear`). -/
def ChunkWriter.getChunkedSegment (w : ChunkWriter) : List Nat :=
  (w.samples.map (fun d => d.payload)).foldr (fun a b => a ++ b) []

/-- Modelled from the spec: `AppendSample(sample)` in chunked mode — adds the
sample to the open fragment and immediately emits the partial payload
covering it. -/
def ChunkWriter.appendSample (w : ChunkWriter) (d : SampleData) :
    ChunkWriter × Option (List Nat) :=
  (⟨w.samples ++ [d]⟩, some d.payload)

/-- Modelled from the spec: `Clear()` — resets accumulated state to empty. -/
def ChunkWriter.clear : ChunkWriter := ⟨[]⟩

/-- Static per-track parameters (`MediaTrack`): frame rate and timescale are
C++ doubles, the sample rate is a (nonnegative) `int32_t`. -/
structure MediaTrack where
  frameRate : Frac
  width : Nat
  height : Nat
  timescale : Frac
  bitrate : Nat
  sampleRate : Nat
  channels : Nat
deriving DecidableEq

/-- Placeholder track used to express the (unreachable) manifest branches
that would dereference a null track pointer in the source; no theorem below
ever reaches it with a configured-track hypothesis violated. -/
def defaultTrack : MediaTrack := ⟨⟨0, 1⟩, 0, 0, ⟨1, 1⟩, 0, 0, 0⟩

/-- Construction-time parameters of the packetizer.  `segPfx` is
`_segment_prefix`; the four suffix/init-name strings stand for the
`CMAF_MPD_*` macros of `dash_define.h`/`cmaf_define` (fixed per-kind
suffixes, not part of this excerpt — every claim below holds for all values
of them); `par` is `_pixel_aspect_ratio` and `startTime` is `_start_time`
(base-class members fixed at stream start); `segmentCount` is the configured
retention window (the CMAF constructor passes 1). -/
structure Config where
  appName : String
  streamName : String
  segPfx : String
  segmentDuration : Frac
  videoTrack : Option MediaTrack
  audioTrack : Option MediaTrack
  par : String
  startTime : String
  videoSuffix : String
  audioSuffix : String
  videoInitName : String
  audioInitName : String
  segmentCount : Nat
deriving DecidableEq

/-- A completed-segment record handed to the persistence layer
(§3 SegmentRecord): file name, duration in ticks, start timestamp, payload. -/
structure SegmentRecord where
  fileName : String
  durationTicks : Nat
  timestamp : Int
  payload : List Nat
deriving DecidableEq

/-- Mutable packetizer state: the per-track sequence counters
(`_video_sequence_number`/`_audio_sequence_number`), the two chunk writers,
the streaming-started flag, the cached manifest text (`_play_list`), the
per-track retained segment records, and the last appended timestamps
(`_last_video_pts`/`_last_audio_pts`). -/
structure PState where
  videoSeq : Nat
  audioSeq : Nat
  videoWriter : ChunkWriter
  audioWriter : ChunkWriter
  streamingStart : Bool
  playList : String
  videoSegments : List SegmentRecord
  audioSegments : List SegmentRecord
  lastVideoPts : Int
  lastAudioPts : Int
deriving DecidableEq

/-- Modelled from the spec: the initial packetizer state — per-track
sequence counters start at 1 (§4.2: "sequence is per track, starts at 1"),
writers are empty, streaming has not started, no manifest is cached, and the
last-seen timestamps are the `-1` sentinels tested by the drift diagnostic
(`_last_video_pts >= 0LL` in the source). -/
def initState : PState :=
  ⟨1, 1, ChunkWriter.clear, ChunkWriter.clear, false, "", [], [], -1, -1⟩

/-- Sink notifications (the `ICmafChunkedTransfer` interface) and the drift
diagnostic log line, recorded as an event trace. -/
inductive Event where
| chunkDataPush (fileName : String) (isVideo : Bool) (payload : List Nat) : Event
| chunkedComplete (fileName : String) (isVideo : Bool) : Event
| driftDiagnostic (audioMs videoMs : Int) : Event
deriving DecidableEq

/-- `CmafPacketyzer::GetFileName` (cmaf_packetyzer.cpp:44):
`FormatString("%s_%u%s", _segment_prefix, sequence number, per-kind
suffix)`. -/
def getFileName (cfg : Config) (s : PState) : MediaType → String
| .video => cfg.segPfx ++ "_" ++ toString s.videoSeq ++ cfg.videoSuffix
| .audio => cfg.segPfx ++ "_" ++ toString s.audioSeq ++ cfg.audioSuffix

/-- The video `availabilityTimeOffset` computation
(cmaf_packetyzer.cpp:186): `_video_track->GetFrameRate() != 0 ?
(_segment_duration - (1.0 / _video_track->GetFrameRate())) :
_segment_duration`. -/
def videoAvailabilityTimeOffset (segmentDuration frameRate : Frac) : Frac :=
  if frameRate.isZero = false then segmentDuration.sub ((Frac.ofInt 1).div frameRate)
  else segmentDuration

/-- The audio `availabilityTimeOffset` computation
(cmaf_packetyzer.cpp:207): `(_audio_track->GetSampleRate() / 1024) != 0 ?
_segment_duration - (1.0 / ((double)_audio_track->GetSampleRate() / 1024)) :
_segment_duration` — note the guard divides the integer sample rate by 1024
in integer arithmetic. -/
def audioAvailabilityTimeOffset (segmentDuration : Frac) (sampleRate : Nat) : Frac :=
  if sampleRate / 1024 ≠ 0 then
    segmentDuration.sub ((Frac.ofInt 1).div ((Frac.ofNat sampleRate).div (Frac.ofNat 1024)))
  else segmentDuration

/-- The MPD header written by `CmafPacketyzer::UpdatePlayList`
(cmaf_packetyzer.cpp:168-182), up to and including the opening `Period`
element.  `publishTime` stands for `MakeUtcSecond(::time(nullptr))`
evaluated when `UpdatePlayList` runs. -/
def mpdHeader (cfg : Config) (publishTime : String) : String :=
  "<?xml version=\"1.0\" encoding=\"utf-8\"?>\n" ++
  "<MPD xmlns:xsi=\"http://www.w3.org/2001/XMLSchema-instance\"\n" ++
  "\txmlns=\"urn:mpeg:dash:schema:mpd:2011\"\n" ++
  "\txmlns:xlink=\"http://www.w3.org/1999/xlink\"\n" ++
  "\txsi:schemaLocation=\"urn:mpeg:DASH:schema:MPD:2011 http://standards.iso.org/ittf/PubliclyAvailableStandards/MPEG-DASH_schema_files/DASH-MPD.xsd\"\n" ++
  "\tprofiles=\"urn:mpeg:dash:profile:isoff-live:2011\"\n" ++
  "\ttype=\"dynamic\"\n" ++
  "\tminimumUpdatePeriod=\"PT" ++ (Frac.ofInt 30).fixed3 ++ "S\"\n" ++
  "\tpublishTime=\"" ++ publishTime ++ "\"\n" ++
  "\tavailabilityStartTime=\"" ++ cfg.startTime ++ "\"\n" ++
  "\ttimeShiftBufferDepth=\"PT" ++ (Frac.ofInt 6).fixed3 ++ "S\"\n" ++
  "\tsuggestedPresentationDelay=\"PT" ++ cfg.segmentDuration.fixed3 ++ "S\"\n" ++
  "\tminBufferTime=\"PT" ++ cfg.segmentDuration.fixed3 ++ "S\">\n" ++
  "\t<Period id=\"0\" start=\"PT0S\">\n"

/-- The video adaptation set written by `UpdatePlayList`
(cmaf_packetyzer.cpp:188-200) when `_video_sequence_number > 1`. -/
def videoAdaptationSet (cfg : Config) (vt : MediaTrack) : String :=
  "\t\t<AdaptationSet id=\"0\" group=\"1\" mimeType=\"video/mp4\" " ++
  "width=\"" ++ toString vt.width ++ "\" height=\"" ++ toString vt.height ++
  "\" par=\"" ++ cfg.par ++ "\" frameRate=\"" ++ vt.frameRate.fixed3 ++
  "\" segmentAlignment=\"true\" startWithSAP=\"1\" subsegmentAlignment=\"true\" subsegmentStartsWithSAP=\"1\">\n" ++
  "\t\t\t<SegmentTemplate presentationTimeOffset=\"0\" timescale=\"" ++
  toString vt.timescale.toUInt32Trunc ++
  "\" duration=\"" ++ toString (cfg.segmentDuration.mul vt.timescale).toUInt32Trunc ++
  "\" availabilityTimeOffset=\"" ++
  (videoAvailabilityTimeOffset cfg.segmentDuration vt.frameRate).fixed3 ++
  "\" startNumber=\"1\" initialization=\"" ++ cfg.videoInitName ++
  "\" media=\"" ++ cfg.segPfx ++ "_$Number$" ++ cfg.videoSuffix ++ "\" />\n" ++
  "\t\t\t<Representation codecs=\"avc1.42401f\" sar=\"1:1\" " ++
  "bandwidth=\"" ++ toString vt.bitrate ++ "\" />\n" ++
  "\t\t</AdaptationSet>\n"

/-- The audio adaptation set written by `UpdatePlayList`
(cmaf_packetyzer.cpp:209-221) when `_audio_sequence_number > 1`. -/
def audioAdaptationSet (cfg : Config) (at_ : MediaTrack) : String :=
  "\t\t<AdaptationSet id=\"1\" group=\"2\" mimeType=\"audio/mp4\" lang=\"und\" segmentAlignment=\"true\" " ++
  "startWithSAP=\"1\" subsegmentAlignment=\"true\" subsegmentStartsWithSAP=\"1\">\n" ++
  "\t\t\t<AudioChannelConfiguration schemeIdUri=\"urn:mpeg:dash:23003:3:audio_channel_configuration:2011\" " ++
  "value=\"" ++ toString at_.channels ++ "\"/>\n" ++
  "\t\t\t<SegmentTemplate presentationTimeOffset=\"0\" timescale=\"" ++
  toString at_.timescale.toUInt32Trunc ++
  "\" duration=\"" ++ toString (cfg.segmentDuration.mul at_.timescale).toUInt32Trunc ++
  "\" availabilityTimeOffset=\"" ++
  (audioAvailabilityTimeOffset cfg.segmentDuration at_.sampleRate).fixed3 ++
  "\" startNumber=\"1\" initialization=\"" ++ cfg.audioInitName ++
  "\" media=\"" ++ cfg.segPfx ++ "_$Number$" ++ cfg.audioSuffix ++ "\" />\n" ++
  "\t\t\t<Representation codecs=\"mp4a.40.2\" audioSamplingRate=\"" ++ toString at_.sampleRate ++
  "\" bandwidth=\"" ++ toString at_.bitrate ++ "\" />\n" ++
  "\t\t</AdaptationSet>\n"

/-- The rendered manifest text up to (and including) the opening quote of
the `UTCTiming` element's `value` attribute. -/
def manifestUpToUtcValue (cfg : Config) (s : PState) (publishTime : String) : String :=
  mpdHeader cfg publishTime ++
  (if s.videoSeq > 1 then videoAdaptationSet cfg (cfg.videoTrack.getD defaultTrack) else "") ++
  (if s.audioSeq > 1 then audioAdaptationSet cfg (cfg.audioTrack.getD defaultTrack) else "") ++
  "\t</Period>\n\t<UTCTiming schemeIdUri=\"urn:mpeg:dash:utc:direct:2014\" value=\""

/-- The remainder of the manifest after the `UTCTiming` value placeholder. -/
def manifestUtcTail : String := "\"/>\n</MPD>\n"

/-- Conversion of a PTS to milliseconds as in the drift diagnostic
(cmaf_packetyzer.cpp:234-235): `static_cast<int64_t>(pts *
track.GetTimeBase().GetExpr() * 1000.0)`, with `GetExpr` the
seconds-per-tick factor `1 / timescale`. -/
def ptsToMs (pts : Int) (track : MediaTrack) : Int :=
  let f := (Frac.mul (Frac.mul ⟨pts, 1⟩ ((Frac.ofInt 1).div track.timescale)) ⟨1000, 1⟩)
  f.num.tdiv f.den

/-- `CmafPacketyzer::UpdatePlayList` (cmaf_packetyzer.cpp:160): renders the
manifest text (cached via `SetPlayList`) with the `%s` placeholder left in
the `UTCTiming` value, and emits the inter-track drift diagnostic when both
last-seen timestamps are nonnegative (cmaf_packetyzer.cpp:232-238). -/
def updatePlayList (cfg : Config) (s : PState) (publishTime : String) :
    String × List Event :=
  let playList := manifestUpToUtcValue cfg s publishTime ++ "%s" ++ manifestUtcTail
  let events :=
    if s.lastVideoPts ≥ 0 ∧ s.lastAudioPts ≥ 0 then
      [Event.driftDiagnostic (ptsToMs s.lastAudioPts (cfg.audioTrack.getD defaultTrack))
        (ptsToMs s.lastVideoPts (cfg.videoTrack.getD defaultTrack))]
    else []
  (playList, events)

/-- Modelled from the spec: `Packetyzer::SetSegmentData` and the manifest
refresh it triggers (§4.2/§4.3/§3) — on persistence failure returns failure
with no state change ("on failure the sequence counter is not advanced"); on
success it appends the `SegmentRecord` to the track's retained history
(evicting records beyond the configured retention window), increments the
track's sequence counter ("counter incremented only on a successful
finalize"), re-renders the cached manifest text, and marks streaming as
started ("first segment published for at least one track").  The
`persistOk` oracle stands for the storage/retention subsystem's verdict. -/
def setSegmentData (cfg : Config) (s : PState) (persistOk : Bool)
    (fileName : String) (durationTicks : Nat) (startTs : Int)
    (payload : List Nat) (mediaType : MediaType) (publishTime : String) :
    Bool × PState × List Event :=
  if persistOk = false then (false, s, [])
  else
    let rec0 : SegmentRecord := ⟨fileName, durationTicks, startTs, payload⟩
    let s1 :=
      match mediaType with
      | .video =>
        let segs := s.videoSegments ++ [rec0]
        { s with videoSegments := segs.drop (segs.length - cfg.segmentCount),
                 videoSeq := s.videoSeq + 1 }
      | .audio =>
        let segs := s.audioSegments ++ [rec0]
        { s with audioSegments := segs.drop (segs.length - cfg.segmentCount),
                 audioSeq := s.audioSeq + 1 }
    let p := updatePlayList cfg s1 publishTime
    (true, { s1 with playList := p.1, streamingStart := true }, p.2)

/-- `CmafPacketyzer::WriteVideoSegment` (cmaf_packetyzer.cpp:98): no-op
success when the writer holds no samples; otherwise compute the file name
from the current sequence number, read start timestamp and duration, extract
the payload, clear the writer, persist via `SetSegmentData`, and on success
notify the sink with `OnCmafChunkedComplete`. -/
def writeVideoSegment (cfg : Config) (s : PState) (persistOk : Bool)
    (publishTime : String) : Bool × PState × List Event :=
  if s.videoWriter.getSampleCount = 0 then (true, s, [])
  else
    let fileName := getFileName cfg s .video
    let startTimestamp := s.videoWriter.getStartTimestamp
    let segmentDuration := s.videoWriter.getSegmentDuration
    let segmentData := s.videoWriter.getChunkedSegment
    let s1 := { s with videoWriter := ChunkWriter.clear }
    let r := setSegmentData cfg s1 persistOk fileName segmentDuration startTimestamp
      segmentData .video publishTime
    if r.1 then (true, r.2.1, r.2.2 ++ [Event.chunkedComplete fileName true])
    else (false, r.2.1, r.2.2)

/-- `CmafPacketyzer::WriteAudioSegment` (cmaf_packetyzer.cpp:129), the audio
mirror of `writeVideoSegment`. -/
def writeAudioSegment (cfg : Config) (s : PState) (persistOk : Bool)
    (publishTime : String) : Bool × PState × List Event :=
  if s.audioWriter.getSampleCount = 0 then (true, s, [])
  else
    let fileName := getFileName cfg s .audio
    let startTimestamp := s.audioWriter.getStartTimestamp
    let segmentDuration := s.audioWriter.getSegmentDuration
    let segmentData := s.audioWriter.getChunkedSegment
    let s1 := { s with audioWriter := ChunkWriter.clear }
    let r := setSegmentData cfg s1 persistOk fileName segmentDuration startTimestamp
      segmentData .audio publishTime
    if r.1 then (true, r.2.1, r.2.2 ++ [Event.chunkedComplete fileName false])
    else (false, r.2.1, r.2.2)

/-- `CmafPacketyzer::AppendVideoFrame` (cmaf_packetyzer.cpp:68): the sample
is appended to the video chunk writer, the emitted chunk is pushed to the
sink under the current segment file name, and `_last_video_pts` is updated
(the boundary-crossing finalize performed by the base-class append internals,
which are outside this excerpt, is modelled as the separate finalize
operation). -/
def appendVideoFrame (cfg : Config) (s : PState) (d : SampleData) :
    PState × List Event :=
  let p := s.videoWriter.appendSample d
  let events :=
    match p.2 with
    | some payload => [Event.chunkDataPush (getFileName cfg s .video) true payload]
    | none => []
  ({ s with videoWriter := p.1, lastVideoPts := d.timestamp }, events)

/-- `CmafPacketyzer::AppendAudioFrame` (cmaf_packetyzer.cpp:83), the audio
mirror of `appendVideoFrame`. -/
def appendAudioFrame (cfg : Config) (s : PState) (d : SampleData) :
    PState × List Event :=
  let p := s.audioWriter.appendSample d
  let events :=
    match p.2 with
    | some payload => [Event.chunkDataPush (getFileName cfg s .audio) false payload]
    | none => []
  ({ s with audioWriter := p.1, lastAudioPts := d.timestamp }, events)

/-- Model of `ov::String::FormatString(fmt, arg)` for a format string whose
only directive is a single `%s` (the `GetPlayList` call site): the first
`%s` is replaced by the argument. -/
def substFirstPctS : List Char → List Char → List Char
| [], _ => []
| [c], _ => [c]
| c1 :: c2 :: rest, arg =>
  if c1 = '%' ∧ c2 = 's' then arg ++ rest
  else c1 :: substFirstPctS (c2 :: rest) arg

/-- String-level wrapper of `substFirstPctS`. -/
def formatS (fmt arg : String) : String := String.mk (substFirstPctS fmt.data arg.data)

/-- `CmafPacketyzer::GetPlayList` (cmaf_packetyzer.cpp:243): fails (leaving
the caller's `play_list` argument untouched) before streaming has started;
otherwise substitutes the current time (`MakeUtcMillisecond()`, passed as
`currentTime`) into the cached text. -/
def getPlayList (s : PState) (currentTime : String) (playListOut : String) :
    Bool × String :=
  if s.streamingStart = false then (false, playListOut)
  else (true, formatS s.playList currentTime)

/-- The packetizer operations exercised by the claims: frame appends and the
per-track finalize, the latter carrying the persistence verdict and the
wall-clock publish-time string of that moment. -/
inductive Op where
| appendVideo (d : SampleData) : Op
| appendAudio (d : SampleData) : Op
| finalizeVideo (persistOk : Bool) (publishTime : String) : Op
| finalizeAudio (persistOk : Bool) (publishTime : String) : Op
deriving DecidableEq

/-- One packetizer operation: next state, emitted events, success flag. -/
def step (cfg : Config) (s : PState) : Op → PState × List Event × Bool
| .appendVideo d => let p := appendVideoFrame cfg s d; (p.1, p.2, true)
| .appendAudio d => let p := appendAudioFrame cfg s d; (p.1, p.2, true)
| .finalizeVideo ok t => let r := writeVideoSegment cfg s ok t; (r.2.1, r.2.2, r.1)
| .finalizeAudio ok t => let r := writeAudioSegment cfg s ok t; (r.2.1, r.2.2, r.1)

/-- Run a list of operations from a state. -/
def run (cfg : Config) (s : PState) : List Op → PState
| [] => s
| op :: t => run cfg (step cfg s op).1 t

/-- The events emitted along a run. -/
def runEvents (cfg : Config) (s : PState) : List Op → List Event
| [] => []
| op :: t => (step cfg s op).2.1 ++ runEvents cfg (step cfg s op).1 t

/-- Whether an operation, taken in the given state, publishes a video
segment (a finalize that has samples to flush and whose persistence
succeeds). -/
def publishesVideo (s : PState) : Op → Bool
| .finalizeVideo ok _ => ok && s.videoWriter.getSampleCount != 0
| _ => false

/-- Audio mirror of `publishesVideo`. -/
def publishesAudio (s : PState) : Op → Bool
| .finalizeAudio ok _ => ok && s.audioWriter.getSampleCount != 0
| _ => false

/-- Whether an operation publishes a segment for either track. -/
def publishesAny (s : PState) (op : Op) : Bool :=
  publishesVideo s op || publishesAudio s op

/-- Whether some operation along a run publishes a segment. -/
def anyPublish (cfg : Config) (s : PState) : List Op → Bool
| [] => false
| op :: t => publishesAny s op || anyPublish cfg (step cfg s op).1 t

/-- Operations that belong to an audio-only stream. -/
def Op.isAudioOp : Op → Bool
| .appendAudio _ => true
| .finalizeAudio _ _ => true
| _ => false

/-- Whether a string is free of the `%` character (so that `FormatString`
treats it literally). -/
def noPct (s : String) : Bool := s.data.all (fun c => c != '%')

end cmaf

namespace cmaf

/-- Whether an event is the inter-track drift diagnostic. -/
def Event.isDrift : Event → Bool
| .driftDiagnostic _ _ => true
| _ => false

end cmaf

/-! ### Concrete instantiation data used by witnesses and counterexamples -/

/-- A concrete 30 fps video track (timescale 90000). -/
def exVideoTrack : cmaf.MediaTrack := ⟨⟨30, 1⟩, 1280, 720, ⟨90000, 1⟩, 2000000, 0, 0⟩

/-- A concrete audio track with sample rate 2048 (timescale 48000). -/
def exAudioTrack : cmaf.MediaTrack := ⟨⟨0, 1⟩, 0, 0, ⟨48000, 1⟩, 128000, 2048, 2⟩

/-- A concrete packetizer configuration with both tracks, 2-second segments,
prefix `seg`. -/
def exCfg : cmaf.Config :=
  ⟨"app", "stream", "seg", ⟨2, 1⟩, some exVideoTrack, some exAudioTrack, "1:1",
   "2024-01-01T00:00:00Z", "_video.m4s", "_audio.m4s", "init_video.m4s", "init_audio.m4s", 1⟩

/-- A concrete audio-only configuration (no video track). -/
def exAudioCfg : cmaf.Config :=
  ⟨"app", "stream", "seg", ⟨2, 1⟩, none, some exAudioTrack, "1:1",
   "2024-01-01T00:00:00Z", "_video.m4s", "_audio.m4s", "init_video.m4s", "init_audio.m4s", 1⟩

/-- A concrete XML configuration node with one child `Name` and one
attribute `version` (and no child or attribute called `Port`). -/
def exNode : cfg.XmlNode :=
  .elem "Server" [("version", "8")] [.elem "Name" [] [] "OME"] ""

/-- An XML data source wrapping `exNode`. -/
def exXmlDs : cfg.DataSource := cfg.DataSource.fromXml "/conf" "Server.xml" exNode

/-- A JSON data source whose object has a single member `Name`. -/
def exJsonDs : cfg.DataSource :=
  cfg.DataSource.fromJson "/conf" "Server.json" "Server" (.obj [("Name", .str "OME")])

/-- A concrete ambient environment. -/
def exSysEnv : cfg.SysEnv := ⟨[], "host", "/app", "/cur"⟩

/-! ### Helper lemmas -/

lemma Frac.val_den_ne {a : Frac} (h : a.den ≠ 0) : ((a.den : ℚ)) ≠ 0 := by
  exact_mod_cast h

lemma Frac.val_sub (a b : Frac) (ha : a.den ≠ 0) (hb : b.den ≠ 0) :
    (a.sub b).val = a.val - b.val := by
  unfold Frac.sub Frac.val
  have ha' : ((a.den : ℚ)) ≠ 0 := by exact_mod_cast ha
  have hb' : ((b.den : ℚ)) ≠ 0 := by exact_mod_cast hb
  push_cast
  field_simp
  ring

lemma Frac.val_ofInt (n : Int) : (Frac.ofInt n).val = (n : ℚ) := by
  unfold Frac.ofInt Frac.val
  norm_num


/-! ### Claim C4 — video availabilityTimeOffset -/

/-- C4: for a video track with frame rate `F` and configured segment
duration `D`, the `availabilityTimeOffset` computed for the manifest equals
`D - 1/F` when `F` is nonzero, and equals `D` when `F = 0`
(cmaf_packetyzer.cpp:186). -/
theorem video_offset_formula :
    ∀ (D F : Frac), D.den ≠ 0 → F.den ≠ 0 →
      ((F.val ≠ 0 →
        (cmaf.videoAvailabilityTimeOffset D F).val = D.val - 1 / F.val) ∧
       (F.val = 0 →
        (cmaf.videoAvailabilityTimeOffset D F).val = D.val)) := by
  intro D F hD hF
  have hFq : ((F.den : ℚ)) ≠ 0 := by exact_mod_cast hF
  constructor
  · intro hv
    have hnum : F.num ≠ 0 := by
      intro h0
      apply hv
      unfold Frac.val
      rw [h0]
      norm_num
    have hnumq : ((F.num : ℚ)) ≠ 0 := by exact_mod_cast hnum
    have hz : F.isZero = false := by
      unfold Frac.isZero
      simp [hnum]
    unfold cmaf.videoAvailabilityTimeOffset
    rw [hz, if_pos rfl]
    rw [Frac.val_sub D _ hD (by simp [Frac.div, Frac.ofInt]; exact hnum)]
    have hdiv : ((Frac.ofInt 1).div F).val = 1 / F.val := by
      simp [Frac.div, Frac.ofInt, Frac.val]
    rw [hdiv]
  · intro hv
    have hnum : F.num = 0 := by
      have := hv
      unfold Frac.val at this
      rcases div_eq_zero_iff.mp this with h | h
      · exact_mod_cast h
      · exact absurd h hFq
    have hz : F.isZero = true := by
      unfold Frac.isZero
      simp [hnum]
    unfold cmaf.videoAvailabilityTimeOffset
    rw [hz]
    simp

/-- C4 witness: at `D = 2`, `F = 30` the computed offset is `2 - 1/30`. -/
theorem video_offset_formula_witness :
    (cmaf.videoAvailabilityTimeOffset ⟨2, 1⟩ ⟨30, 1⟩).val = Frac.val ⟨2, 1⟩ - 1 / Frac.val ⟨30, 1⟩ :=
  (video_offset_formula ⟨2, 1⟩ ⟨30, 1⟩ (by decide) (by decide)).1 (by norm_num [Frac.val])

/-! ### Claim C3 — audio availabilityTimeOffset -/

/-- C3 counterexample: at segment duration 2 and the nonzero sample rate
512, the code computes offset 2 (the guard `sampleRate / 1024 != 0` uses
integer division, so any nonzero rate below 1024 falls into the degraded
branch), while the claimed formula `D - 1024/sampleRate` gives 0. -/
theorem audio_offset_counterexample :
    (512 : Nat) ≠ 0 ∧
    (cmaf.audioAvailabilityTimeOffset (Frac.ofInt 2) 512).val = 2 ∧
    (cmaf.audioAvailabilityTimeOffset (Frac.ofInt 2) 512).val ≠ 2 - 1024 / 512 := by
  refine ⟨by decide, ?_, ?_⟩ <;>
    norm_num [cmaf.audioAvailabilityTimeOffset, Frac.ofInt, Frac.val]

/-- C3 (amended): the audio `availabilityTimeOffset` equals
`D - 1024/sampleRate` whenever `sampleRate ≥ 1024` (equivalently, whenever
the integer quotient `sampleRate / 1024` is nonzero), and degrades to the
full segment duration whenever `sampleRate < 1024` (including zero)
(cmaf_packetyzer.cpp:207). -/
theorem audio_offset_amended :
    ∀ (D : Frac) (sr : Nat), D.den ≠ 0 →
      ((1024 ≤ sr →
        (cmaf.audioAvailabilityTimeOffset D sr).val = D.val - 1024 / (sr : ℚ)) ∧
       (sr < 1024 →
        (cmaf.audioAvailabilityTimeOffset D sr).val = D.val)) := by
  intro D sr hD
  constructor
  · intro hsr
    have hg : sr / 1024 ≠ 0 := by
      have h1 : 1 ≤ sr / 1024 := (Nat.one_le_div_iff (by norm_num)).mpr hsr
      omega
    have hsr0 : sr ≠ 0 := by omega
    have hsrq : ((sr : ℚ)) ≠ 0 := by exact_mod_cast hsr0
    unfold cmaf.audioAvailabilityTimeOffset
    simp only [hg, ne_eq, not_false_eq_true, if_true]
    rw [Frac.val_sub D _ hD
      (by simp [Frac.div, Frac.ofInt, Frac.ofNat]; exact_mod_cast hsr0)]
    have : ((Frac.ofInt 1).div ((Frac.ofNat sr).div (Frac.ofNat 1024))).val = 1024 / (sr : ℚ) := by
      simp [Frac.div, Frac.ofInt, Frac.ofNat, Frac.val]
    rw [this]
  · intro hsr
    unfold cmaf.audioAvailabilityTimeOffset
    simp [Nat.div_eq_of_lt hsr]

/-- C3 witness for the amended claim: at `D = 2`, sample rate 48000 the
computed offset is `2 - 1024/48000`. -/
theorem audio_offset_amended_witness :
    (cmaf.audioAvailabilityTimeOffset ⟨2, 1⟩ 48000).val = Frac.val ⟨2, 1⟩ - 1024 / (48000 : ℚ) :=
  (audio_offset_amended ⟨2, 1⟩ 48000 (by decide)).1 (by norm_num)

/-! ### Claim C5 — finalize with zero accumulated samples -/

/-- C5: a finalize call on a track whose chunk writer has zero accumulated
samples returns success with the state exactly unchanged (sequence number,
stored segments, writer) and emits no sink notification; a second
consecutive such call behaves the same (cmaf_packetyzer.cpp:100-104 and
131-135). -/
theorem finalize_zero_samples_noop :
    ∀ (cfg0 : cmaf.Config) (s : cmaf.PState) (ok ok2 : Bool) (t t2 : String),
      (s.videoWriter.getSampleCount = 0 →
        cmaf.writeVideoSegment cfg0 s ok t = (true, s, []) ∧
        cmaf.writeVideoSegment cfg0 (cmaf.writeVideoSegment cfg0 s ok t).2.1 ok2 t2 =
          (true, s, [])) ∧
      (s.audioWriter.getSampleCount = 0 →
        cmaf.writeAudioSegment cfg0 s ok t = (true, s, []) ∧
        cmaf.writeAudioSegment cfg0 (cmaf.writeAudioSegment cfg0 s ok t).2.1 ok2 t2 =
          (true, s, [])) := by
  intro cfg0 s ok ok2 t t2
  constructor
  · intro h
    have h1 : cmaf.writeVideoSegment cfg0 s ok t = (true, s, []) := by
      unfold cmaf.writeVideoSegment
      simp [h]
    refine ⟨h1, ?_⟩
    rw [h1]
    unfold cmaf.writeVideoSegment
    simp [h]
  · intro h
    have h1 : cmaf.writeAudioSegment cfg0 s ok t = (true, s, []) := by
      unfold cmaf.writeAudioSegment
      simp [h]
    refine ⟨h1, ?_⟩
    rw [h1]
    unfold cmaf.writeAudioSegment
    simp [h]

/-- C5 witness: from the initial state (empty writers) a video finalize is a
successful no-op. -/
theorem finalize_zero_samples_noop_witness :
    cmaf.writeVideoSegment exCfg cmaf.initState true "T1" = (true, cmaf.initState, []) :=
  ((finalize_zero_samples_noop exCfg cmaf.initState true true "T1" "T2").1 (by decide)).1

/-! ### Claim C6 — persistence failure during finalize -/

/-- C6: when the writer has samples but persisting the segment record fails,
finalize returns failure, the state is unchanged except that the writer has
already been cleared (that segment's fragment data is lost without retry —
in particular the sequence counter is not advanced), and no sink
segment-completion notification is emitted (cmaf_packetyzer.cpp:106-126 and
137-157, with the persistence verdict modelled by the `SetSegmentData`
oracle). -/
theorem finalize_persist_failure :
    ∀ (cfg0 : cmaf.Config) (s : cmaf.PState) (t : String),
      (s.videoWriter.getSampleCount ≠ 0 →
        cmaf.writeVideoSegment cfg0 s false t =
          (false, { s with videoWriter := cmaf.ChunkWriter.clear }, [])) ∧
      (s.audioWriter.getSampleCount ≠ 0 →
        cmaf.writeAudioSegment cfg0 s false t =
          (false, { s with audioWriter := cmaf.ChunkWriter.clear }, [])) := by
  intro cfg0 s t
  constructor
  · intro h
    unfold cmaf.writeVideoSegment
    simp [h, cmaf.setSegmentData]
  · intro h
    unfold cmaf.writeAudioSegment
    simp [h, cmaf.setSegmentData]

/-- C6 witness: with one accumulated video sample and a failing persistence
verdict, finalize fails and only the writer is cleared. -/
theorem finalize_persist_failure_witness :
    cmaf.writeVideoSegment exCfg
      { cmaf.initState with videoWriter := ⟨[⟨0, 1000, [7]⟩]⟩ } false "T1" =
      (false,
       { { cmaf.initState with videoWriter := ⟨[⟨0, 1000, [7]⟩]⟩ } with
         videoWriter := cmaf.ChunkWriter.clear }, []) :=
  (finalize_persist_failure exCfg
    { cmaf.initState with videoWriter := ⟨[⟨0, 1000, [7]⟩]⟩ } "T1").1 (by decide)

/-! ### Step lemmas shared by the run-level claims -/

lemma step_videoSeq (cfg0 : cmaf.Config) (s : cmaf.PState) (op : cmaf.Op) :
    (cmaf.step cfg0 s op).1.videoSeq =
      s.videoSeq + (if cmaf.publishesVideo s op then 1 else 0) := by
  cases op with
  | appendVideo d => simp [cmaf.step, cmaf.appendVideoFrame, cmaf.publishesVideo]
  | appendAudio d => simp [cmaf.step, cmaf.appendAudioFrame, cmaf.publishesVideo]
  | finalizeVideo ok t =>
    by_cases h : s.videoWriter.getSampleCount = 0
    · simp [cmaf.step, cmaf.writeVideoSegment, h, cmaf.publishesVideo]
    · cases ok with
      | false =>
        simp [cmaf.step, cmaf.writeVideoSegment, h, cmaf.setSegmentData,
          cmaf.publishesVideo]
      | true =>
        simp [cmaf.step, cmaf.writeVideoSegment, h, cmaf.setSegmentData,
          cmaf.publishesVideo, cmaf.updatePlayList]
  | finalizeAudio ok t =>
    by_cases h : s.audioWriter.getSampleCount = 0
    · simp [cmaf.step, cmaf.writeAudioSegment, h, cmaf.publishesVideo]
    · cases ok with
      | false =>
        simp [cmaf.step, cmaf.writeAudioSegment, h, cmaf.setSegmentData,
          cmaf.publishesVideo]
      | true =>
        simp [cmaf.step, cmaf.writeAudioSegment, h, cmaf.setSegmentData,
          cmaf.publishesVideo, cmaf.updatePlayList]

lemma step_audioSeq (cfg0 : cmaf.Config) (s : cmaf.PState) (op : cmaf.Op) :
    (cmaf.step cfg0 s op).1.audioSeq =
      s.audioSeq + (if cmaf.publishesAudio s op then 1 else 0) := by
  cases op with
  | appendVideo d => simp [cmaf.step, cmaf.appendVideoFrame, cmaf.publishesAudio]
  | appendAudio d => simp [cmaf.step, cmaf.appendAudioFrame, cmaf.publishesAudio]
  | finalizeVideo ok t =>
    by_cases h : s.videoWriter.getSampleCount = 0
    · simp [cmaf.step, cmaf.writeVideoSegment, h, cmaf.publishesAudio]
    · cases ok with
      | false =>
        simp [cmaf.step, cmaf.writeVideoSegment, h, cmaf.setSegmentData,
          cmaf.publishesAudio]
      | true =>
        simp [cmaf.step, cmaf.writeVideoSegment, h, cmaf.setSegmentData,
          cmaf.publishesAudio, cmaf.updatePlayList]
  | finalizeAudio ok t =>
    by_cases h : s.audioWriter.getSampleCount = 0
    · simp [cmaf.step, cmaf.writeAudioSegment, h, cmaf.publishesAudio]
    · cases ok with
      | false =>
        simp [cmaf.step, cmaf.writeAudioSegment, h, cmaf.setSegmentData,
          cmaf.publishesAudio]
      | true =>
        simp [cmaf.step, cmaf.writeAudioSegment, h, cmaf.setSegmentData,
          cmaf.publishesAudio, cmaf.updatePlayList]

lemma step_streamingStart (cfg0 : cmaf.Config) (s : cmaf.PState) (op : cmaf.Op) :
    (cmaf.step cfg0 s op).1.streamingStart =
      (s.streamingStart || cmaf.publishesAny s op) := by
  cases op with
  | appendVideo d =>
    simp [cmaf.step, cmaf.appendVideoFrame, cmaf.publishesAny, cmaf.publishesVideo,
      cmaf.publishesAudio]
  | appendAudio d =>
    simp [cmaf.step, cmaf.appendAudioFrame, cmaf.publishesAny, cmaf.publishesVideo,
      cmaf.publishesAudio]
  | finalizeVideo ok t =>
    by_cases h : s.videoWriter.getSampleCount = 0
    · simp [cmaf.step, cmaf.writeVideoSegment, h, cmaf.publishesAny,
        cmaf.publishesVideo, cmaf.publishesAudio]
    · cases ok with
      | false =>
        simp [cmaf.step, cmaf.writeVideoSegment, h, cmaf.setSegmentData,
          cmaf.publishesAny, cmaf.publishesVideo, cmaf.publishesAudio]
      | true =>
        simp [cmaf.step, cmaf.writeVideoSegment, h, cmaf.setSegmentData,
          cmaf.publishesAny, cmaf.publishesVideo, cmaf.publishesAudio,
          cmaf.updatePlayList]
  | finalizeAudio ok t =>
    by_cases h : s.audioWriter.getSampleCount = 0
    · simp [cmaf.step, cmaf.writeAudioSegment, h, cmaf.publishesAny,
        cmaf.publishesVideo, cmaf.publishesAudio]
    · cases ok with
      | false =>
        simp [cmaf.step, cmaf.writeAudioSegment, h, cmaf.setSegmentData,
          cmaf.publishesAny, cmaf.publishesVideo, cmaf.publishesAudio]
      | true =>
        simp [cmaf.step, cmaf.writeAudioSegment, h, cmaf.setSegmentData,
          cmaf.publishesAny, cmaf.publishesVideo, cmaf.publishesAudio,
          cmaf.updatePlayList]

lemma run_videoSeq_mono (cfg0 : cmaf.Config) :
    ∀ (ops : List cmaf.Op) (s : cmaf.PState),
      s.videoSeq ≤ (cmaf.run cfg0 s ops).videoSeq := by
  intro ops
  induction ops with
  | nil => intro s; simp [cmaf.run]
  | cons op t ih =>
    intro s
    have h1 := step_videoSeq cfg0 s op
    have h2 := ih (cmaf.step cfg0 s op).1
    show s.videoSeq ≤ (cmaf.run cfg0 (cmaf.step cfg0 s op).1 t).videoSeq
    have : s.videoSeq ≤ (cmaf.step cfg0 s op).1.videoSeq := by
      rw [h1]; split <;> omega
    omega

lemma run_audioSeq_mono (cfg0 : cmaf.Config) :
    ∀ (ops : List cmaf.Op) (s : cmaf.PState),
      s.audioSeq ≤ (cmaf.run cfg0 s ops).audioSeq := by
  intro ops
  induction ops with
  | nil => intro s; simp [cmaf.run]
  | cons op t ih =>
    intro s
    have h1 := step_audioSeq cfg0 s op
    have h2 := ih (cmaf.step cfg0 s op).1
    show s.audioSeq ≤ (cmaf.run cfg0 (cmaf.step cfg0 s op).1 t).audioSeq
    have : s.audioSeq ≤ (cmaf.step cfg0 s op).1.audioSeq := by
      rw [h1]; split <;> omega
    omega

lemma run_streamingStart (cfg0 : cmaf.Config) :
    ∀ (ops : List cmaf.Op) (s : cmaf.PState),
      (cmaf.run cfg0 s ops).streamingStart =
        (s.streamingStart || cmaf.anyPublish cfg0 s ops) := by
  intro ops
  induction ops with
  | nil => intro s; simp [cmaf.run, cmaf.anyPublish]
  | cons op t ih =>
    intro s
    show (cmaf.run cfg0 (cmaf.step cfg0 s op).1 t).streamingStart = _
    rw [ih (cmaf.step cfg0 s op).1, step_streamingStart]
    have hc : cmaf.anyPublish cfg0 s (op :: t) =
        (cmaf.publishesAny s op || cmaf.anyPublish cfg0 (cmaf.step cfg0 s op).1 t) := rfl
    rw [hc, Bool.or_assoc]

/-! ### Claim C1 — per-track sequence number discipline -/

/-- C1: each per-track sequence number starts at 1; one step changes it by
exactly 1 when that step is a successful, non-no-op finalize of the track
(`publishesVideo`/`publishesAudio`) and leaves it unchanged otherwise (in
particular on failed and no-op finalizes, which are the only finalizes that
do not publish — the third conjunct characterizes the finalize success
flag); along any run it never decreases (so it is never reset or reused). -/
theorem sequence_number_invariant :
    cmaf.initState.videoSeq = 1 ∧ cmaf.initState.audioSeq = 1 ∧
    (∀ (cfg0 : cmaf.Config) (s : cmaf.PState) (op : cmaf.Op),
      (cmaf.step cfg0 s op).1.videoSeq =
        s.videoSeq + (if cmaf.publishesVideo s op then 1 else 0) ∧
      (cmaf.step cfg0 s op).1.audioSeq =
        s.audioSeq + (if cmaf.publishesAudio s op then 1 else 0)) ∧
    (∀ (cfg0 : cmaf.Config) (s : cmaf.PState) (ok : Bool) (t : String),
      (cmaf.step cfg0 s (cmaf.Op.finalizeVideo ok t)).2.2 =
        (ok || s.videoWriter.getSampleCount == 0) ∧
      (cmaf.step cfg0 s (cmaf.Op.finalizeAudio ok t)).2.2 =
        (ok || s.audioWriter.getSampleCount == 0)) ∧
    (∀ (cfg0 : cmaf.Config) (s : cmaf.PState) (ops : List cmaf.Op),
      s.videoSeq ≤ (cmaf.run cfg0 s ops).videoSeq ∧
      s.audioSeq ≤ (cmaf.run cfg0 s ops).audioSeq) := by
  refine ⟨rfl, rfl, ?_, ?_, ?_⟩
  · intro cfg0 s op
    exact ⟨step_videoSeq cfg0 s op, step_audioSeq cfg0 s op⟩
  · intro cfg0 s ok t
    constructor
    · by_cases h : s.videoWriter.getSampleCount = 0
      · simp [cmaf.step, cmaf.writeVideoSegment, h]
      · cases ok with
        | false => simp [cmaf.step, cmaf.writeVideoSegment, h, cmaf.setSegmentData]
        | true => simp [cmaf.step, cmaf.writeVideoSegment, h, cmaf.setSegmentData]
    · by_cases h : s.audioWriter.getSampleCount = 0
      · simp [cmaf.step, cmaf.writeAudioSegment, h]
      · cases ok with
        | false => simp [cmaf.step, cmaf.writeAudioSegment, h, cmaf.setSegmentData]
        | true => simp [cmaf.step, cmaf.writeAudioSegment, h, cmaf.setSegmentData]
  · intro cfg0 s ops
    exact ⟨run_videoSeq_mono cfg0 ops s, run_audioSeq_mono cfg0 ops s⟩

/-! ### Claim C2 — manifest availability gated on the first segment -/

/-- C2: from the initial state, `GetPlayList` fails (returning `false` and
leaving the caller's output string untouched) exactly as long as no
operation of the run has published a segment on any track, and succeeds with
the cached manifest text (with the request-time substitution) as soon as one
has (cmaf_packetyzer.cpp:243-256; the `_streaming_start` flag is maintained
by the spec-modelled `SetSegmentData`). -/
theorem playlist_requires_first_segment :
    ∀ (cfg0 : cmaf.Config) (ops : List cmaf.Op) (t pl0 : String),
      cmaf.getPlayList (cmaf.run cfg0 cmaf.initState ops) t pl0 =
        (if cmaf.anyPublish cfg0 cmaf.initState ops then
          (true, cmaf.formatS (cmaf.run cfg0 cmaf.initState ops).playList t)
         else (false, pl0)) := by
  intro cfg0 ops t pl0
  have h := run_streamingStart cfg0 ops cmaf.initState
  rw [show cmaf.initState.streamingStart = false from rfl, Bool.false_or] at h
  unfold cmaf.getPlayList
  rw [h]
  by_cases hp : cmaf.anyPublish cfg0 cmaf.initState ops = true
  · simp [hp]
  · simp only [Bool.not_eq_true] at hp
    simp [hp]

/-! ### Claim C7 — segment file naming -/

lemma getLast?_drop_of_lt {α : Type} :
    ∀ (l : List α) (k : Nat), k < l.length → (l.drop k).getLast? = l.getLast? := by
  intro l
  induction l with
  | nil => intro k hk; simp at hk
  | cons a t ih =>
    intro k hk
    cases k with
    | zero => rfl
    | succ k =>
      have hk' : k < t.length := by simpa using hk
      have hd : (a :: t).drop (k + 1) = t.drop k := rfl
      rw [hd, ih k hk']
      cases t with
      | nil => simp at hk'
      | cons b t2 => simp [List.getLast?_cons_cons]

lemma setSegmentData_video_bookkeeping (cfg0 : cmaf.Config) (s : cmaf.PState)
    (fileName : String) (dur : Nat) (ts : Int) (payload : List Nat) (pt : String)
    (hc : 0 < cfg0.segmentCount) :
    ((cmaf.setSegmentData cfg0 s true fileName dur ts payload .video pt).2.1.videoSegments.map
        cmaf.SegmentRecord.fileName).getLast? = some fileName ∧
    (cmaf.setSegmentData cfg0 s true fileName dur ts payload .video pt).2.1.videoSeq =
      s.videoSeq + 1 := by
  unfold cmaf.setSegmentData
  simp only [if_neg (by simp : ¬(true = false))]
  constructor
  · have hlen : (s.videoSegments ++ [(⟨fileName, dur, ts, payload⟩ : cmaf.SegmentRecord)]).length -
        cfg0.segmentCount <
        (s.videoSegments ++ [(⟨fileName, dur, ts, payload⟩ : cmaf.SegmentRecord)]).length := by
      simp
      omega
    rw [List.getLast?_map, getLast?_drop_of_lt _ _ hlen]
    simp
  · simp

lemma setSegmentData_audio_bookkeeping (cfg0 : cmaf.Config) (s : cmaf.PState)
    (fileName : String) (dur : Nat) (ts : Int) (payload : List Nat) (pt : String)
    (hc : 0 < cfg0.segmentCount) :
    ((cmaf.setSegmentData cfg0 s true fileName dur ts payload .audio pt).2.1.audioSegments.map
        cmaf.SegmentRecord.fileName).getLast? = some fileName ∧
    (cmaf.setSegmentData cfg0 s true fileName dur ts payload .audio pt).2.1.audioSeq =
      s.audioSeq + 1 := by
  unfold cmaf.setSegmentData
  simp only [if_neg (by simp : ¬(true = false))]
  constructor
  · have hlen : (s.audioSegments ++ [(⟨fileName, dur, ts, payload⟩ : cmaf.SegmentRecord)]).length -
        cfg0.segmentCount <
        (s.audioSegments ++ [(⟨fileName, dur, ts, payload⟩ : cmaf.SegmentRecord)]).length := by
      simp
      omega
    rw [List.getLast?_map, getLast?_drop_of_lt _ _ hlen]
    simp
  · simp

lemma setSegmentData_flag (cfg0 : cmaf.Config) (s : cmaf.PState)
    (fileName : String) (dur : Nat) (ts : Int) (payload : List Nat)
    (mt : cmaf.MediaType) (pt : String) :
    (cmaf.setSegmentData cfg0 s true fileName dur ts payload mt pt).1 = true := by
  unfold cmaf.setSegmentData
  simp

lemma writeVideoSegment_publish (cfg0 : cmaf.Config) (s : cmaf.PState) (t : String)
    (h : s.videoWriter.getSampleCount ≠ 0) :
    cmaf.writeVideoSegment cfg0 s true t =
      (true,
       (cmaf.setSegmentData cfg0 { s with videoWriter := cmaf.ChunkWriter.clear } true
         (cmaf.getFileName cfg0 s .video) s.videoWriter.getSegmentDuration
         s.videoWriter.getStartTimestamp s.videoWriter.getChunkedSegment .video t).2.1,
       (cmaf.setSegmentData cfg0 { s with videoWriter := cmaf.ChunkWriter.clear } true
         (cmaf.getFileName cfg0 s .video) s.videoWriter.getSegmentDuration
         s.videoWriter.getStartTimestamp s.videoWriter.getChunkedSegment .video t).2.2 ++
         [cmaf.Event.chunkedComplete (cmaf.getFileName cfg0 s .video) true]) := by
  unfold cmaf.writeVideoSegment
  rw [if_neg h]
  simp only [setSegmentData_flag, if_pos]

lemma writeAudioSegment_publish (cfg0 : cmaf.Config) (s : cmaf.PState) (t : String)
    (h : s.audioWriter.getSampleCount ≠ 0) :
    cmaf.writeAudioSegment cfg0 s true t =
      (true,
       (cmaf.setSegmentData cfg0 { s with audioWriter := cmaf.ChunkWriter.clear } true
         (cmaf.getFileName cfg0 s .audio) s.audioWriter.getSegmentDuration
         s.audioWriter.getStartTimestamp s.audioWriter.getChunkedSegment .audio t).2.1,
       (cmaf.setSegmentData cfg0 { s with audioWriter := cmaf.ChunkWriter.clear } true
         (cmaf.getFileName cfg0 s .audio) s.audioWriter.getSegmentDuration
         s.audioWriter.getStartTimestamp s.audioWriter.getChunkedSegment .audio t).2.2 ++
         [cmaf.Event.chunkedComplete (cmaf.getFileName cfg0 s .audio) false]) := by
  unfold cmaf.writeAudioSegment
  rw [if_neg h]
  simp only [setSegmentData_flag, if_pos]

/-- C7: a successful finalize of a track with accumulated samples emits its
sink completion notification, and stores its segment record, under the file
name `<prefix>_<current sequence number><per-kind suffix>`
(cmaf_packetyzer.cpp:44-56), and then advances the sequence number; in the
concrete scenario, the first finalized video segment is named
`seg_1_video.m4s` and the next finalize produces `seg_2_video.m4s`. -/
theorem segment_file_naming :
    (∀ (cfg0 : cmaf.Config) (s : cmaf.PState) (t : String),
      s.videoWriter.getSampleCount ≠ 0 → 0 < cfg0.segmentCount →
        (cmaf.writeVideoSegment cfg0 s true t).2.2.getLast? =
          some (cmaf.Event.chunkedComplete
            (cfg0.segPfx ++ "_" ++ toString s.videoSeq ++ cfg0.videoSuffix) true) ∧
        ((cmaf.writeVideoSegment cfg0 s true t).2.1.videoSegments.map
            cmaf.SegmentRecord.fileName).getLast? =
          some (cfg0.segPfx ++ "_" ++ toString s.videoSeq ++ cfg0.videoSuffix) ∧
        (cmaf.writeVideoSegment cfg0 s true t).2.1.videoSeq = s.videoSeq + 1) ∧
    (∀ (cfg0 : cmaf.Config) (s : cmaf.PState) (t : String),
      s.audioWriter.getSampleCount ≠ 0 → 0 < cfg0.segmentCount →
        (cmaf.writeAudioSegment cfg0 s true t).2.2.getLast? =
          some (cmaf.Event.chunkedComplete
            (cfg0.segPfx ++ "_" ++ toString s.audioSeq ++ cfg0.audioSuffix) false) ∧
        ((cmaf.writeAudioSegment cfg0 s true t).2.1.audioSegments.map
            cmaf.SegmentRecord.fileName).getLast? =
          some (cfg0.segPfx ++ "_" ++ toString s.audioSeq ++ cfg0.audioSuffix) ∧
        (cmaf.writeAudioSegment cfg0 s true t).2.1.audioSeq = s.audioSeq + 1) ∧
    cmaf.runEvents exCfg cmaf.initState
        [cmaf.Op.appendVideo ⟨0, 90000, [9]⟩, cmaf.Op.finalizeVideo true "T1",
         cmaf.Op.appendVideo ⟨90000, 90000, [8]⟩, cmaf.Op.finalizeVideo true "T2"] =
      [cmaf.Event.chunkDataPush "seg_1_video.m4s" true [9],
       cmaf.Event.chunkedComplete "seg_1_video.m4s" true,
       cmaf.Event.chunkDataPush "seg_2_video.m4s" true [8],
       cmaf.Event.chunkedComplete "seg_2_video.m4s" true] := by
  refine ⟨?_, ?_, by decide⟩
  · intro cfg0 s t h hc
    have hb := setSegmentData_video_bookkeeping cfg0
      { s with videoWriter := cmaf.ChunkWriter.clear }
      (cmaf.getFileName cfg0 s .video) s.videoWriter.getSegmentDuration
      s.videoWriter.getStartTimestamp s.videoWriter.getChunkedSegment t hc
    rw [writeVideoSegment_publish cfg0 s t h]
    refine ⟨?_, ?_, ?_⟩
    · rw [List.getLast?_concat]
      rfl
    · exact hb.1
    · exact hb.2
  · intro cfg0 s t h hc
    have hb := setSegmentData_audio_bookkeeping cfg0
      { s with audioWriter := cmaf.ChunkWriter.clear }
      (cmaf.getFileName cfg0 s .audio) s.audioWriter.getSegmentDuration
      s.audioWriter.getStartTimestamp s.audioWriter.getChunkedSegment t hc
    rw [writeAudioSegment_publish cfg0 s t h]
    refine ⟨?_, ?_, ?_⟩
    · rw [List.getLast?_concat]
      rfl
    · exact hb.1
    · exact hb.2

/-- C7 witness: from a state with one accumulated video sample and sequence
number 1, the completion notification carries the sequence-1 file name. -/
theorem segment_file_naming_witness :
    (cmaf.writeVideoSegment exCfg
        { cmaf.initState with videoWriter := ⟨[⟨0, 90000, [9]⟩]⟩ } true "T1").2.2.getLast? =
      some (cmaf.Event.chunkedComplete
        (exCfg.segPfx ++ "_" ++
          toString ({ cmaf.initState with videoWriter := ⟨[⟨0, 90000, [9]⟩]⟩ } : cmaf.PState).videoSeq ++
          exCfg.videoSuffix) true) :=
  ((segment_file_naming).1 exCfg
    { cmaf.initState with videoWriter := ⟨[⟨0, 90000, [9]⟩]⟩ } "T1"
    (by decide) (by decide)).1

/-! ### Claim C8 — audio-only streams -/

lemma str_empty_append (s : String) : "" ++ s = s := by
  apply String.ext
  rw [String.data_append]
  rfl

lemma updatePlayList_no_drift (cfg0 : cmaf.Config) (s : cmaf.PState) (pt : String)
    (hlv : s.lastVideoPts < 0) :
    (cmaf.updatePlayList cfg0 s pt).2 = [] := by
  unfold cmaf.updatePlayList
  have hcon : ¬(s.lastVideoPts ≥ 0 ∧ s.lastAudioPts ≥ 0) := by
    intro hcon
    omega
  simp [hcon]

lemma step_audioOnly (cfg0 : cmaf.Config) (s : cmaf.PState) (op : cmaf.Op)
    (hop : cmaf.Op.isAudioOp op = true) :
    (cmaf.step cfg0 s op).1.videoSeq = s.videoSeq ∧
    (cmaf.step cfg0 s op).1.lastVideoPts = s.lastVideoPts ∧
    (s.lastVideoPts < 0 →
      ∀ e ∈ (cmaf.step cfg0 s op).2.1, cmaf.Event.isDrift e = false) := by
  cases op with
  | appendVideo d => simp [cmaf.Op.isAudioOp] at hop
  | finalizeVideo ok t => simp [cmaf.Op.isAudioOp] at hop
  | appendAudio d =>
    refine ⟨rfl, rfl, ?_⟩
    intro hlv e he
    simp [cmaf.step, cmaf.appendAudioFrame, cmaf.ChunkWriter.appendSample] at he
    rw [he]
    rfl
  | finalizeAudio ok t =>
    by_cases h : s.audioWriter.getSampleCount = 0
    · refine ⟨?_, ?_, ?_⟩ <;>
        simp [cmaf.step, cmaf.writeAudioSegment, h]
    · cases ok with
      | false =>
        refine ⟨?_, ?_, ?_⟩ <;>
          simp [cmaf.step, cmaf.writeAudioSegment, h, cmaf.setSegmentData]
      | true =>
        have hw := writeAudioSegment_publish cfg0 s t h
        have hdr : (cmaf.setSegmentData cfg0 { s with audioWriter := cmaf.ChunkWriter.clear } true
            (cmaf.getFileName cfg0 s .audio) s.audioWriter.getSegmentDuration
            s.audioWriter.getStartTimestamp s.audioWriter.getChunkedSegment .audio t).2.1.videoSeq =
            s.videoSeq ∧
            (cmaf.setSegmentData cfg0 { s with audioWriter := cmaf.ChunkWriter.clear } true
            (cmaf.getFileName cfg0 s .audio) s.audioWriter.getSegmentDuration
            s.audioWriter.getStartTimestamp s.audioWriter.getChunkedSegment .audio t).2.1.lastVideoPts =
            s.lastVideoPts := by
          unfold cmaf.setSegmentData
          simp
        refine ⟨?_, ?_, ?_⟩
        · show (cmaf.writeAudioSegment cfg0 s true t).2.1.videoSeq = s.videoSeq
          rw [hw]
          exact hdr.1
        · show (cmaf.writeAudioSegment cfg0 s true t).2.1.lastVideoPts = s.lastVideoPts
          rw [hw]
          exact hdr.2
        · intro hlv e he
          show cmaf.Event.isDrift e = false
          have he2 : e ∈ (cmaf.writeAudioSegment cfg0 s true t).2.2 := he
          rw [hw] at he2
          have hnd : (cmaf.setSegmentData cfg0 { s with audioWriter := cmaf.ChunkWriter.clear } true
              (cmaf.getFileName cfg0 s .audio) s.audioWriter.getSegmentDuration
              s.audioWriter.getStartTimestamp s.audioWriter.getChunkedSegment .audio t).2.2 = [] := by
            unfold cmaf.setSegmentData
            simp only [if_neg (by simp : ¬(true = false))]
            exact updatePlayList_no_drift cfg0 _ t (by simpa using hlv)
          rw [hnd] at he2
          simp at he2
          rw [he2]
          rfl

lemma run_audioOnly (cfg0 : cmaf.Config) :
    ∀ (ops : List cmaf.Op) (s : cmaf.PState),
      (∀ op ∈ ops, cmaf.Op.isAudioOp op = true) →
      ((cmaf.run cfg0 s ops).videoSeq = s.videoSeq ∧
       (cmaf.run cfg0 s ops).lastVideoPts = s.lastVideoPts ∧
       (s.lastVideoPts < 0 →
         ∀ e ∈ cmaf.runEvents cfg0 s ops, cmaf.Event.isDrift e = false)) := by
  intro ops
  induction ops with
  | nil =>
    intro s h
    refine ⟨rfl, rfl, ?_⟩
    intro hlv e he
    simp [cmaf.runEvents] at he
  | cons op t ih =>
    intro s h
    have hop := h op (by simp)
    have ht : ∀ op2 ∈ t, cmaf.Op.isAudioOp op2 = true := by
      intro op2 h2
      exact h op2 (by simp [h2])
    have hs := step_audioOnly cfg0 s op hop
    have hr := ih (cmaf.step cfg0 s op).1 ht
    refine ⟨?_, ?_, ?_⟩
    · show (cmaf.run cfg0 (cmaf.step cfg0 s op).1 t).videoSeq = s.videoSeq
      rw [hr.1, hs.1]
    · show (cmaf.run cfg0 (cmaf.step cfg0 s op).1 t).lastVideoPts = s.lastVideoPts
      rw [hr.2.1, hs.2.1]
    · intro hlv e he
      have he2 : e ∈ (cmaf.step cfg0 s op).2.1 ++ cmaf.runEvents cfg0 (cmaf.step cfg0 s op).1 t := he
      rcases List.mem_append.mp he2 with h1 | h2
      · exact hs.2.2 hlv e h1
      · exact hr.2.2 (by rw [hs.2.1]; exact hlv) e h2

/-- C8: along any run consisting solely of audio operations (an audio-only
stream), the video sequence number stays 1, so the manifest rendered by
`UpdatePlayList` never contains a video adaptation set (a track's adaptation
set is emitted only when its sequence number exceeds 1,
cmaf_packetyzer.cpp:184/204), and the inter-track drift diagnostic is never
emitted (cmaf_packetyzer.cpp:232-238). -/
theorem audio_only_stream_manifest :
    ∀ (cfg0 : cmaf.Config) (ops : List cmaf.Op) (t : String),
      (∀ op ∈ ops, cmaf.Op.isAudioOp op = true) →
        (cmaf.run cfg0 cmaf.initState ops).videoSeq = 1 ∧
        (cmaf.updatePlayList cfg0 (cmaf.run cfg0 cmaf.initState ops) t).1 =
          cmaf.mpdHeader cfg0 t ++
          (if (cmaf.run cfg0 cmaf.initState ops).audioSeq > 1 then
            cmaf.audioAdaptationSet cfg0 (cfg0.audioTrack.getD cmaf.defaultTrack)
           else "") ++
          "\t</Period>\n\t<UTCTiming schemeIdUri=\"urn:mpeg:dash:utc:direct:2014\" value=\"" ++
          "%s" ++ cmaf.manifestUtcTail ∧
        (cmaf.updatePlayList cfg0 (cmaf.run cfg0 cmaf.initState ops) t).2 = [] ∧
        (∀ e ∈ cmaf.runEvents cfg0 cmaf.initState ops, cmaf.Event.isDrift e = false) := by
  intro cfg0 ops t h
  have hr := run_audioOnly cfg0 ops cmaf.initState h
  have hseq : (cmaf.run cfg0 cmaf.initState ops).videoSeq = 1 := by
    rw [hr.1]
    rfl
  have hlv : (cmaf.run cfg0 cmaf.initState ops).lastVideoPts = -1 := by
    rw [hr.2.1]
    rfl
  refine ⟨hseq, ?_, ?_, ?_⟩
  · show (cmaf.updatePlayList cfg0 (cmaf.run cfg0 cmaf.initState ops) t).1 = _
    unfold cmaf.updatePlayList
    show cmaf.manifestUpToUtcValue cfg0 (cmaf.run cfg0 cmaf.initState ops) t ++ "%s" ++
      cmaf.manifestUtcTail = _
    unfold cmaf.manifestUpToUtcValue
    rw [hseq]
    simp only [gt_iff_lt, lt_irrefl, if_false]
    apply String.ext
    simp [String.data_append]
  · exact updatePlayList_no_drift cfg0 _ t (by rw [hlv]; norm_num)
  · exact hr.2.2 (by decide)

/-- C8 witness: a concrete audio-only run (one append, one successful
finalize) leaves the video sequence number at 1. -/
theorem audio_only_stream_manifest_witness :
    (cmaf.run exAudioCfg cmaf.initState
      [cmaf.Op.appendAudio ⟨0, 48000, [1]⟩, cmaf.Op.finalizeAudio true "T1"]).videoSeq = 1 :=
  (audio_only_stream_manifest exAudioCfg
    [cmaf.Op.appendAudio ⟨0, 48000, [1]⟩, cmaf.Op.finalizeAudio true "T1"] "T2"
    (by decide)).1

/-! ### Claim C9 — which manifest field is recomputed per request -/

/-- C9 counterexample: after a successful audio finalize at wall-clock
string `T1`, a `GetPlayList` request at wall-clock string `T2` returns text
whose `publishTime` attribute still holds `T1` (the finalize-time value
baked into the cached text, cmaf_packetyzer.cpp:177) and not the request
time `T2`, while the `UTCTiming` element's `value` holds the request time
`T2` (substituted through the `%s` placeholder of
cmaf_packetyzer.cpp:225 by cmaf_packetyzer.cpp:253) — the opposite of the
claimed behavior. -/
theorem manifest_publish_time_counterexample :
    strContains ((cmaf.getPlayList (cmaf.run exAudioCfg cmaf.initState
        [cmaf.Op.appendAudio ⟨0, 48000, [1]⟩, cmaf.Op.finalizeAudio true "T1"]) "T2" "").2)
      "publishTime=\"T1\"" = true ∧
    strContains ((cmaf.getPlayList (cmaf.run exAudioCfg cmaf.initState
        [cmaf.Op.appendAudio ⟨0, 48000, [1]⟩, cmaf.Op.finalizeAudio true "T1"]) "T2" "").2)
      "publishTime=\"T2\"" = false ∧
    strContains ((cmaf.getPlayList (cmaf.run exAudioCfg cmaf.initState
        [cmaf.Op.appendAudio ⟨0, 48000, [1]⟩, cmaf.Op.finalizeAudio true "T1"]) "T2" "").2)
      "value=\"T2\"/>" = true := by
  refine ⟨by decide, by decide, by decide⟩

lemma substFirst_split :
    ∀ (a b arg : List Char), (∀ c ∈ a, c ≠ '%') →
      cmaf.substFirstPctS (a ++ '%' :: 's' :: b) arg = a ++ arg ++ b := by
  intro a
  induction a with
  | nil =>
    intro b arg h
    simp [cmaf.substFirstPctS]
  | cons c t ih =>
    intro b arg h
    have hc : c ≠ '%' := h c (by simp)
    cases t with
    | nil =>
      show cmaf.substFirstPctS (c :: '%' :: 's' :: b) arg = _
      rw [cmaf.substFirstPctS]
      rw [if_neg (by intro hcon; exact hc hcon.1)]
      rw [show ('%' : Char) :: 's' :: b = [] ++ '%' :: 's' :: b from rfl]
      rw [ih b arg (by intro x hx; simp at hx)]
      simp
    | cons c2 t2 =>
      have h2 : ∀ x ∈ c2 :: t2, x ≠ '%' := by
        intro x hx
        exact h x (by simp [hx])
      show cmaf.substFirstPctS (c :: ((c2 :: t2) ++ '%' :: 's' :: b)) arg = _
      rw [List.cons_append, cmaf.substFirstPctS]
      rw [if_neg (by intro hcon; exact hc hcon.1)]
      rw [show c2 :: (t2 ++ '%' :: 's' :: b) = (c2 :: t2) ++ '%' :: 's' :: b from rfl]
      rw [ih b arg h2]
      simp

lemma formatS_split (A B arg : String) (h : cmaf.noPct A = true) :
    cmaf.formatS (A ++ "%s" ++ B) arg = A ++ arg ++ B := by
  unfold cmaf.formatS
  apply String.ext
  rw [String.data_append, String.data_append]
  rw [show ("%s" : String).data = ['%', 's'] from rfl]
  rw [List.append_assoc]
  have hchars : ∀ c ∈ A.data, c ≠ '%' := by
    simpa [cmaf.noPct, List.all_eq_true] using h
  rw [show (['%', 's'] : List Char) ++ B.data = '%' :: 's' :: B.data from rfl]
  rw [substFirst_split A.data B.data arg.data hchars]
  rw [String.data_append, String.data_append]

lemma setSegmentData_playlist (cfg0 : cmaf.Config) (s : cmaf.PState)
    (fileName : String) (dur : Nat) (ts : Int) (payload : List Nat)
    (mt : cmaf.MediaType) (pt : String) :
    (cmaf.setSegmentData cfg0 s true fileName dur ts payload mt pt).2.1.streamingStart = true ∧
    (cmaf.setSegmentData cfg0 s true fileName dur ts payload mt pt).2.1.playList =
      cmaf.manifestUpToUtcValue cfg0
        (cmaf.setSegmentData cfg0 s true fileName dur ts payload mt pt).2.1 pt ++
      "%s" ++ cmaf.manifestUtcTail := by
  cases mt <;> exact ⟨rfl, rfl⟩

/-- C9 (amended): once a finalize has succeeded, `GetPlayList` returns the
manifest text cached at that finalize — whose `publishTime` field holds the
finalize-time clock string `now` — with the request-time clock string
substituted into the `UTCTiming` element's value; only that UTC-timing value
is recomputed per call (the returned text is `A ++ t ++ B` where `A` and `B`
do not depend on the request time `t`, and `A` embeds `now`)
(cmaf_packetyzer.cpp:177, 225, 243-256).  The `noPct` hypothesis says the
cached text ahead of the placeholder contains no `%` character, which is
how `FormatString` treats it as literal text. -/
theorem manifest_request_time_substitution :
    ∀ (cfg0 : cmaf.Config) (s : cmaf.PState) (now t pl0 : String),
      (s.videoWriter.getSampleCount ≠ 0 →
        cmaf.noPct (cmaf.manifestUpToUtcValue cfg0
          (cmaf.writeVideoSegment cfg0 s true now).2.1 now) = true →
        cmaf.getPlayList (cmaf.writeVideoSegment cfg0 s true now).2.1 t pl0 =
          (true, cmaf.manifestUpToUtcValue cfg0
            (cmaf.writeVideoSegment cfg0 s true now).2.1 now ++ t ++ cmaf.manifestUtcTail)) ∧
      (s.audioWriter.getSampleCount ≠ 0 →
        cmaf.noPct (cmaf.manifestUpToUtcValue cfg0
          (cmaf.writeAudioSegment cfg0 s true now).2.1 now) = true →
        cmaf.getPlayList (cmaf.writeAudioSegment cfg0 s true now).2.1 t pl0 =
          (true, cmaf.manifestUpToUtcValue cfg0
            (cmaf.writeAudioSegment cfg0 s true now).2.1 now ++ t ++ cmaf.manifestUtcTail)) := by
  intro cfg0 s now t pl0
  constructor
  · intro h hn
    rw [writeVideoSegment_publish cfg0 s now h] at hn ⊢
    have hp := setSegmentData_playlist cfg0 { s with videoWriter := cmaf.ChunkWriter.clear }
      (cmaf.getFileName cfg0 s .video) s.videoWriter.getSegmentDuration
      s.videoWriter.getStartTimestamp s.videoWriter.getChunkedSegment .video now
    unfold cmaf.getPlayList
    rw [hp.1]
    rw [if_neg (by simp)]
    rw [hp.2]
    rw [formatS_split _ _ _ hn]
  · intro h hn
    rw [writeAudioSegment_publish cfg0 s now h] at hn ⊢
    have hp := setSegmentData_playlist cfg0 { s with audioWriter := cmaf.ChunkWriter.clear }
      (cmaf.getFileName cfg0 s .audio) s.audioWriter.getSegmentDuration
      s.audioWriter.getStartTimestamp s.audioWriter.getChunkedSegment .audio now
    unfold cmaf.getPlayList
    rw [hp.1]
    rw [if_neg (by simp)]
    rw [hp.2]
    rw [formatS_split _ _ _ hn]

/-- C9 witness for the amended claim: a concrete audio finalize at `T1`
followed by a request at `T2`. -/
theorem manifest_request_time_substitution_witness :
    cmaf.getPlayList (cmaf.writeAudioSegment exAudioCfg
        { cmaf.initState with audioWriter := ⟨[⟨0, 48000, [1]⟩]⟩ } true "T1").2.1 "T2" "" =
      (true, cmaf.manifestUpToUtcValue exAudioCfg (cmaf.writeAudioSegment exAudioCfg
        { cmaf.initState with audioWriter := ⟨[⟨0, 48000, [1]⟩]⟩ } true "T1").2.1 "T1" ++
        "T2" ++ cmaf.manifestUtcTail) :=
  (manifest_request_time_substitution exAudioCfg
    { cmaf.initState with audioWriter := ⟨[⟨0, 48000, [1]⟩]⟩ } "T1" "T2" "").2
    (by decide) (by decide)

/-! ### Claim C10 — absent configuration values yield empty results -/

/-- C10: for each scalar value type (string, integer, long, boolean, double,
text, attribute), a named-value query against a configuration data source
whose underlying XML child element / attribute (data_source.cpp:359-448) or
JSON member / `$`-attribute entry (data_source.cpp:536-603) is absent
returns the empty `std::any` — not an error and not a default-constructed
value (the value-construction branch is never taken). -/
theorem config_absent_value_empty :
    ∀ (se : cfg.SysEnv) (ds : cfg.DataSource) (vt : cfg.ValueType)
      (name : String) (resolvePath : Bool) (omitRule : cfg.OmitRule),
      vt.isScalar = true →
        (cfg.xmlAbsent ds vt name = true →
          (cfg.getValueFromXml se ds vt name true resolvePath).1 = none) ∧
        (cfg.jsonAbsent ds vt name = true →
          (cfg.getValueFromJson se ds vt name true resolvePath omitRule).1 = none) := by
  intro se ds vt name resolvePath omitRule hs
  constructor
  · intro ha
    cases vt with
    | unknown => simp [cfg.ValueType.isScalar] at hs
    | item => simp [cfg.ValueType.isScalar] at hs
    | listv => simp [cfg.ValueType.isScalar] at hs
    | attr =>
      simp only [cfg.xmlAbsent] at ha
      have ha2 : ds.node.attrOf name = none := by
        cases hopt : ds.node.attrOf name with
        | none => rfl
        | some v => rw [hopt] at ha; simp at ha
      simp [cfg.getValueFromXml, ha2]
    | strType =>
      simp only [cfg.xmlAbsent] at ha
      simp [cfg.getValueFromXml, ha]
    | integer =>
      simp only [cfg.xmlAbsent] at ha
      simp [cfg.getValueFromXml, ha]
    | long =>
      simp only [cfg.xmlAbsent] at ha
      simp [cfg.getValueFromXml, ha]
    | boolean =>
      simp only [cfg.xmlAbsent] at ha
      simp [cfg.getValueFromXml, ha]
    | double =>
      simp only [cfg.xmlAbsent] at ha
      simp [cfg.getValueFromXml, ha]
    | text =>
      simp only [cfg.xmlAbsent] at ha
      simp [cfg.getValueFromXml, ha]
  · intro ha
    cases vt with
    | unknown => simp [cfg.ValueType.isScalar] at hs
    | item => simp [cfg.ValueType.isScalar] at hs
    | listv => simp [cfg.ValueType.isScalar] at hs
    | attr =>
      simp only [cfg.jsonAbsent] at ha
      simp [cfg.getValueFromJson, ha]
    | strType =>
      simp only [cfg.jsonAbsent] at ha
      simp [cfg.getValueFromJson, ha]
    | integer =>
      simp only [cfg.jsonAbsent] at ha
      simp [cfg.getValueFromJson, ha]
    | long =>
      simp only [cfg.jsonAbsent] at ha
      simp [cfg.getValueFromJson, ha]
    | boolean =>
      simp only [cfg.jsonAbsent] at ha
      simp [cfg.getValueFromJson, ha]
    | double =>
      simp only [cfg.jsonAbsent] at ha
      simp [cfg.getValueFromJson, ha]
    | text =>
      simp only [cfg.jsonAbsent] at ha
      simp [cfg.getValueFromJson, ha]

/-- C10 witness: the concrete sources have no child/member `Port`, and the
integer query returns the empty result on both. -/
theorem config_absent_value_empty_witness :
    (cfg.getValueFromXml exSysEnv exXmlDs .integer "Port" true false).1 = none ∧
    (cfg.getValueFromJson exSysEnv exJsonDs .integer "Port" true false .dontOmit).1 = none :=
  ⟨(config_absent_value_empty exSysEnv exXmlDs .integer "Port" false .dontOmit
      (by decide)).1 (by decide),
   (config_absent_value_empty exSysEnv exJsonDs .integer "Port" false .dontOmit
      (by decide)).2 (by decide)⟩
